import Mathlib

/-!
Shallow embedding of the arXiv fulltext extraction service
(`fulltext/domain.py`, `fulltext/extract.py`, `fulltext/controllers.py`,
`fulltext/services/store/store.py`, `fulltext/process/psv.py`,
`fulltext/services/extractor/`), together with theorems settling the
frozen claims about its specification.

Conventions of the embedding:

* Python `str` is Lean `String`; where character-level reasoning is needed we
  pass through `String.data : List Char`.
* Python `datetime` values are always timezone-aware UTC in this code base
  (`datetime.now(UTC)`, `fromisoformat` of such values), so they are embedded
  as a plain calendar record `PyDateTime` without a timezone field.
* Fallible operations return `Except`/`Option`; I/O failure is injected
  through an explicit set of failing paths in the filesystem state.
* `float(...)` sort keys are embedded as exact rationals; for the list sizes
  and decimal version tags involved, the float comparisons performed by the
  source agree with the exact rational ones.
-/

namespace Fulltext

/-- `Status` enum from `fulltext/domain.py`. -/
inductive Status where
  | IN_PROGRESS
  | SUCCEEDED
  | FAILED
deriving DecidableEq, Repr

/-- `Status.value`: the string value of each enum member. -/
def Status.value : Status → String
  | .IN_PROGRESS => "in_progress"
  | .SUCCEEDED => "succeeded"
  | .FAILED => "failed"

/-- `Status(value)`: enum lookup by value; `none` models the `ValueError`
raised by Python for an unknown value. -/
def Status.ofValue : String → Option Status
  | "in_progress" => some .IN_PROGRESS
  | "succeeded" => some .SUCCEEDED
  | "failed" => some .FAILED
  | _ => none

/-- A timezone-aware UTC `datetime` as used throughout the source
(`datetime.now(UTC)` and values parsed back by `fromisoformat`). -/
structure PyDateTime where
  year : Nat
  month : Nat
  day : Nat
  hour : Nat
  minute : Nat
  second : Nat
  microsecond : Nat
deriving DecidableEq, Repr

/-- Field bounds of a valid `datetime` (these are exactly the widths the
fixed-width ISO-8601 rendering relies on). -/
def PyDateTime.WellFormed (d : PyDateTime) : Prop :=
  d.year < 10000 ∧ d.month < 100 ∧ d.day < 100 ∧ d.hour < 100 ∧
    d.minute < 100 ∧ d.second < 100 ∧ d.microsecond < 1000000

instance (d : PyDateTime) : Decidable d.WellFormed := by
  unfold PyDateTime.WellFormed; infer_instance

/-- The decimal digit characters. -/
def digitChar : Nat → Char
  | 0 => '0' | 1 => '1' | 2 => '2' | 3 => '3' | 4 => '4'
  | 5 => '5' | 6 => '6' | 7 => '7' | 8 => '8' | _ => '9'

/-- Whether a character is an ASCII decimal digit (`\d` on this input set). -/
def isDigitChar (c : Char) : Bool :=
  48 ≤ c.toNat ∧ c.toNat ≤ 57

/-- Numeric value of an ASCII digit character. -/
def digitVal (c : Char) : Nat := c.toNat - 48

/-- Fixed-width decimal rendering (`'%0*d'`-style zero padding used by
`datetime.isoformat`), producing exactly `w` digit characters,
most significant first. -/
def padNum : Nat → Nat → List Char
  | 0, _ => []
  | w + 1, n => digitChar (n / 10 ^ w) :: padNum w (n % 10 ^ w)

/-- Read `w` characters as a decimal number (the fixed-position field parse
performed by `datetime.fromisoformat`); fails unless the next `w` characters
are all digits.  Returns the value and the remaining input. -/
def parseNumW : Nat → Nat → List Char → Option (Nat × List Char)
  | 0, acc, cs => some (acc, cs)
  | _ + 1, _, [] => none
  | w + 1, acc, c :: cs =>
    if isDigitChar c then parseNumW w (acc * 10 + digitVal c) cs else none

/-- `datetime.isoformat()` for a UTC-aware datetime: fixed-width date and
time fields, the microsecond part only when it is nonzero, and the
`+00:00` offset (the UTC offset always carried by these values). -/
def isoformat (d : PyDateTime) : List Char :=
  padNum 4 d.year ++ ('-' :: (padNum 2 d.month ++ ('-' :: (padNum 2 d.day ++
    ('T' :: (padNum 2 d.hour ++ (':' :: (padNum 2 d.minute ++ (':' :: (padNum 2 d.second ++
    ((if d.microsecond = 0 then [] else '.' :: padNum 6 d.microsecond) ++
    ('+' :: '0' :: '0' :: ':' :: '0' :: '0' :: []))))))))))))

/-- Expect one literal character of the input. -/
def expectChar (c : Char) : List Char → Option (List Char)
  | [] => none
  | c' :: cs => if c' = c then some cs else none

/-- `datetime.fromisoformat` restricted to the shapes `isoformat` emits:
fixed-position numeric fields, optional fractional seconds, `+00:00` offset. -/
def fromisoformat (cs : List Char) : Option PyDateTime :=
  match parseNumW 4 0 cs with
  | none => none
  | some (y, cs) =>
  match expectChar '-' cs with
  | none => none
  | some cs =>
  match parseNumW 2 0 cs with
  | none => none
  | some (mo, cs) =>
  match expectChar '-' cs with
  | none => none
  | some cs =>
  match parseNumW 2 0 cs with
  | none => none
  | some (d, cs) =>
  match expectChar 'T' cs with
  | none => none
  | some cs =>
  match parseNumW 2 0 cs with
  | none => none
  | some (h, cs) =>
  match expectChar ':' cs with
  | none => none
  | some cs =>
  match parseNumW 2 0 cs with
  | none => none
  | some (mi, cs) =>
  match expectChar ':' cs with
  | none => none
  | some cs =>
  match parseNumW 2 0 cs with
  | none => none
  | some (s, cs) =>
  match (match cs with
         | '.' :: cs => parseNumW 6 0 cs
         | cs => some (0, cs)) with
  | none => none
  | some (us, cs) =>
  match cs with
  | '+' :: '0' :: '0' :: ':' :: '0' :: '0' :: [] =>
    some ⟨y, mo, d, h, mi, s, us⟩
  | _ => none

/-- Render as a Lean `String` (the value Python stores in the dict). -/
def isoformatStr (d : PyDateTime) : String := ⟨isoformat d⟩

/-- `Extraction` record from `fulltext/domain.py` (named-tuple fields with
their defaults). -/
structure Extraction where
  identifier : String
  version : String
  bucket : String := "arxiv"
  started : Option PyDateTime := none
  ended : Option PyDateTime := none
  owner : Option String := none
  exception : Option String := none
  task_id : Option String := none
  status : Status := .IN_PROGRESS
  content : Option String := none
deriving DecidableEq, Repr

/-- The dict produced by `Extraction.to_dict`: timestamps as ISO-8601 strings
(or null), `status` as its string value. -/
structure ExtractionDict where
  identifier : String
  version : String
  started : Option String
  ended : Option String
  owner : Option String
  task_id : Option String
  exception : Option String
  status : String
  content : Option String
  bucket : String
deriving DecidableEq, Repr

/-- `Extraction.to_dict` from `fulltext/domain.py`. -/
def Extraction.to_dict (e : Extraction) : ExtractionDict where
  identifier := e.identifier
  version := e.version
  started := e.started.map isoformatStr
  ended := e.ended.map isoformatStr
  owner := e.owner
  task_id := e.task_id
  exception := e.exception
  status := e.status.value
  content := e.content
  bucket := e.bucket

/-- The keyword arguments `Extraction.copy` is called with in this code base
(`status`, `started`, `ended`, `owner`, `exception`, `content`); a `some`
field means the keyword was passed with that value. -/
structure CopyArgs where
  started : Option PyDateTime := none
  ended : Option PyDateTime := none
  owner : Option String := none
  exception : Option String := none
  status : Option Status := none
  content : Option String := none
deriving Repr

/-- `Extraction.copy` from `fulltext/domain.py`: serialise through `to_dict`,
apply the keyword overrides, then convert `status`/`started`/`ended` back from
their string forms when (and only when) they are still strings.  `none` models
the exception Python would raise if a string failed to convert. -/
def Extraction.copy (e : Extraction) (args : CopyArgs) : Option Extraction :=
  let data := e.to_dict
  let status? : Option Status :=
    match args.status with
    | some s => some s                 -- kwarg value is already a `Status`
    | none => Status.ofValue data.status
  let started? : Option (Option PyDateTime) :=
    match args.started with
    | some dt => some (some dt)        -- kwarg value is already a `datetime`
    | none =>
      match data.started with
      | none => some none
      | some iso => (fromisoformat iso.data).map some
  let ended? : Option (Option PyDateTime) :=
    match args.ended with
    | some dt => some (some dt)
    | none =>
      match data.ended with
      | none => some none
      | some iso => (fromisoformat iso.data).map some
  match status?, started?, ended? with
  | some st, some sa, some en =>
    some { identifier := data.identifier
           version := data.version
           bucket := data.bucket
           started := sa
           ended := en
           owner := args.owner.or data.owner
           exception := args.exception.or data.exception
           task_id := data.task_id
           status := st
           content := args.content.or data.content }
  | _, _, _ => none

/-- Well-formedness of an `Extraction`: any timestamps it carries are valid
datetimes. -/
def Extraction.WellFormed (e : Extraction) : Prop :=
  (∀ d ∈ e.started, d.WellFormed) ∧ (∀ d ∈ e.ended, d.WellFormed)

instance (e : Extraction) : Decidable e.WellFormed := by
  unfold Extraction.WellFormed; infer_instance

/-- `task_id` from `fulltext/extract.py`:
`f"{id_type}::{identifier}::{version}"`. -/
def task_id (identifier id_type version : String) : String :=
  id_type ++ "::" ++ identifier ++ "::" ++ version

/-- A string with no `':'` character (the side condition under which the
`task_id` concatenation is injective). -/
def noColons (s : String) : Prop := ':' ∉ s.data

instance (s : String) : Decidable (noColons s) := by
  unfold noColons; infer_instance

/-- `_SupportedBuckets.__contains__` from `fulltext/domain.py`. -/
def SupportedBuckets.mem (value : String) : Bool :=
  value = "arxiv" ∨ value = "submission"

/-- `_SupportedFormats.__contains__` from `fulltext/domain.py`. -/
def SupportedFormats.mem (value : String) : Bool :=
  value = "plain" ∨ value = "psv"

/-! ### Store (`fulltext/services/store/store.py`)

The filesystem is an association list from paths (component lists) to file
contents, plus a set of paths whose writes fail (modelling `IOError` /
`PermissionError` on `open(path, 'w')`).  `meta.json` files hold the
structured record that `json.dumps(extraction.to_dict() minus content)`
serialises; the JSON layer itself is lossless for this shape and is not
re-modelled. -/

/-- The metadata record stored in `meta.json`: `to_dict()` with `content`
popped. -/
structure MetaDict where
  identifier : String
  version : String
  started : Option String
  ended : Option String
  owner : Option String
  task_id : Option String
  exception : Option String
  status : String
  bucket : String
deriving DecidableEq, Repr

/-- Drop the `content` entry of a `to_dict()` dict (`meta.pop('content')`). -/
def ExtractionDict.popContent (d : ExtractionDict) : MetaDict where
  identifier := d.identifier
  version := d.version
  started := d.started
  ended := d.ended
  owner := d.owner
  task_id := d.task_id
  exception := d.exception
  status := d.status
  bucket := d.bucket

/-- A file on the storage volume: a UTF-8 content blob or a `meta.json`
record. -/
inductive FileContent where
  | text (s : String)
  | meta (m : MetaDict)
deriving DecidableEq, Repr

/-- A path on the volume, as a list of components (`os.path.join` arguments;
a component containing `/` denotes the corresponding nested directories). -/
abbrev FilePath' := List String

/-- The storage volume state: files plus the set of paths whose writes
fail with an I/O error. -/
structure FS where
  files : List (FilePath' × FileContent) := []
  failing : List FilePath' := []
deriving Repr, DecidableEq

/-- Look up a path in the file list. -/
def lookupPath : List (FilePath' × FileContent) → FilePath' → Option FileContent
  | [], _ => none
  | (q, c) :: rest, p => if q = p then some c else lookupPath rest p

/-- Write a path: replace in place if present, else append. -/
def writePath : List (FilePath' × FileContent) → FilePath' → FileContent →
    List (FilePath' × FileContent)
  | [], p, c => [(p, c)]
  | (q, c') :: rest, p, c =>
    if q = p then (p, c) :: rest else (q, c') :: writePath rest p c

def FS.lookup (fs : FS) (p : FilePath') : Option FileContent :=
  lookupPath fs.files p

/-- First-occurrence deduplication (directory entries are listed once). -/
def dedupAux : List String → List String → List String
  | _, [] => []
  | seen, x :: xs =>
    if x ∈ seen then dedupAux seen xs else x :: dedupAux (x :: seen) xs

/-- The direct children of a directory, in file-creation order
(`os.listdir`; the OS order is unspecified, creation order is this model's
choice of witness order). -/
def FS.listdir (fs : FS) (root : FilePath') : List String :=
  dedupAux []
    (fs.files.filterMap fun pc =>
      if pc.1.take root.length = root then
        match pc.1.drop root.length with
        | [] => none
        | c :: _ => some c
      else none)

instance {e a : Type} [DecidableEq e] [DecidableEq a] : DecidableEq (Except e a) :=
  fun x y =>
  match x, y with
  | .error u, .error v =>
    if h : u = v then .isTrue (by rw [h]) else .isFalse (fun hc => h (Except.error.inj hc))
  | .ok u, .ok v =>
    if h : u = v then .isTrue (by rw [h]) else .isFalse (fun hc => h (Except.ok.inj hc))
  | .error _, .ok _ => .isFalse (fun hc => Except.noConfusion hc)
  | .ok _, .error _ => .isFalse (fun hc => Except.noConfusion hc)

/-- Error kinds raised by the store
(`fulltext/services/store/store.py`). -/
inductive StoreErr where
  | DoesNotExist
  | StorageFailed
  | AssertionError   -- `assert meta['bucket'] == bucket`
  | ValueError       -- invalid serialised metadata (`Status(...)`/`fromisoformat`)
deriving DecidableEq, Repr

/-- Whether a character is an ASCII lowercase letter. -/
def isLowerAlpha (c : Char) : Bool :=
  97 ≤ c.toNat ∧ c.toNat ≤ 122

/-- Models `arxiv.identifier.OLD_STYLE.match` (external `arxiv.base`
package, an out-of-scope collaborator): an old-style announced e-print id
`archive/YYMMNNN`, with an optional `vN` suffix (spec §4.1). -/
def OLD_STYLE_matches (s : String) : Bool :=
  match s.data.splitOn '/' with
  | [pre, num] =>
    !pre.isEmpty && pre.all (fun c => isLowerAlpha c || c == '-') &&
      decide (num.length ≥ 7) && (num.take 7).all isDigitChar &&
      (match num.drop 7 with
       | [] => true
       | 'v' :: rest => !rest.isEmpty && rest.all isDigitChar
       | _ => false)
  | _ => false

/-- Models `arxiv.identifier.STANDARD.match` (external `arxiv.base`
package): a new-style announced e-print id `YYMM.NNNNN[vK]` (spec §4.1). -/
def STANDARD_matches (s : String) : Bool :=
  match s.data.splitOn '.' with
  | [pre, num] =>
    decide (pre.length = 4) && pre.all isDigitChar &&
      decide ((num.takeWhile isDigitChar).length ≥ 4) &&
      decide ((num.takeWhile isDigitChar).length ≤ 5) &&
      (match num.dropWhile isDigitChar with
       | [] => true
       | 'v' :: rest => !rest.isEmpty && rest.all isDigitChar
       | _ => false)
  | _ => false

/-- `identifier.split('/', 1)`: the part before the first `/` and the rest. -/
def splitFirstSlash (s : String) : String × String :=
  (⟨s.data.takeWhile (· ≠ '/')⟩, ⟨(s.data.dropWhile (· ≠ '/')).drop 1⟩)

/-- `identifier.split('.', 1)[0]`. -/
def beforeFirstDot (s : String) : String :=
  ⟨s.data.takeWhile (· ≠ '.')⟩

namespace Storage

/-- `Storage._paper_path` from `fulltext/services/store/store.py`. -/
def _paper_path (volume identifier bucket : String) : FilePath' :=
  if OLD_STYLE_matches identifier then
    let (pre, num) := splitFirstSlash identifier
    [volume, bucket, pre, ⟨num.data.take 4⟩, num]
  else if STANDARD_matches identifier then
    [volume, bucket, beforeFirstDot identifier, identifier]
  else
    [volume, bucket, identifier]

/-- `Storage._path`. -/
def _path (volume identifier version content_fmt bucket : String) : FilePath' :=
  _paper_path volume identifier bucket ++ [version, content_fmt]

/-- `Storage._meta_path`. -/
def _meta_path (volume identifier version bucket : String) : FilePath' :=
  _paper_path volume identifier bucket ++ [version, "meta.json"]

end Storage

/-- The digits of a decimal literal as a number. -/
def digitsVal (ds : List Char) : Nat :=
  ds.foldl (fun a c => a * 10 + digitVal c) 0

/-- An exact decimal value `num / 10 ^ exp`: the value of a decimal float
literal.  For the literals used as extractor version tags, IEEE doubles
compare exactly as these exact values do. -/
structure DecFloat where
  num : Int
  exp : Nat
deriving DecidableEq, Repr

/-- The exact rational value of a decimal literal. -/
def DecFloat.toQ (a : DecFloat) : ℚ :=
  (a.num : ℚ) / (10 : ℚ) ^ a.exp

/-- Comparison of two decimal values by cross-multiplication (equivalent to
`toQ a ≤ toQ b`; executable without rational normalisation). -/
def DecFloat.ble (a b : DecFloat) : Bool :=
  a.num * 10 ^ b.exp ≤ b.num * 10 ^ a.exp

/-- Models Python `float(value)` on the decimal literals used as extractor
version tags: optional sign, integer digits, optional fractional digits
(exponent, `inf`/`nan` and surrounding whitespace forms are not used by
version names and are not modelled). -/
def pyFloatParse (s : String) : Option DecFloat :=
  let signed : Int × List Char :=
    match s.data with
    | '-' :: cs => (-1, cs)
    | '+' :: cs => (1, cs)
    | cs => (1, cs)
  let sgn := signed.1
  let cs := signed.2
  let ip := cs.takeWhile isDigitChar
  let rest := cs.dropWhile isDigitChar
  match rest with
  | [] => if ip = [] then none else some ⟨sgn * digitsVal ip, 0⟩
  | '.' :: rest2 =>
    let fp := rest2.takeWhile isDigitChar
    let rest3 := rest2.dropWhile isDigitChar
    if rest3 = [] ∧ (ip ≠ [] ∨ fp ≠ []) then
      some ⟨sgn * (digitsVal ip * 10 ^ fp.length + digitsVal fp), fp.length⟩
    else none
  | _ => none

/-- `Storage._latest_version._try_float`: `float(value)` with `0.0` on
`ValueError` (exact decimal representation). -/
def _try_float_df (s : String) : DecFloat :=
  (pyFloatParse s).getD ⟨0, 0⟩

/-- The rational value of the `_try_float` sort key. -/
def _try_float (s : String) : ℚ :=
  (_try_float_df s).toQ

/-- `p.startswith('.')`. -/
def startsWithDot (p : String) : Bool :=
  match p.data with
  | '.' :: _ => true
  | _ => false

/-- Lexicographic comparison of strings by code point (the default `str`
ordering, used only by the spec-side definition below). -/
def lexLe (a b : String) : Bool :=
  go a.data b.data
where
  go : List Char → List Char → Bool
    | [], _ => true
    | _ :: _, [] => false
    | c :: cs, d :: ds =>
      if c.toNat < d.toNat then true
      else if d.toNat < c.toNat then false
      else go cs ds

/-- The lexicographically greatest element of a list of strings. -/
def lexLast : List String → Option String
  | [] => none
  | x :: xs =>
    match lexLast xs with
    | none => some x
    | some m => some (if lexLe x m then m else x)

/-- `l[-1]` on a possibly-empty list. -/
def lastOpt {α : Type} : List α → Option α
  | [] => none
  | [x] => some x
  | _ :: x :: xs => lastOpt (x :: xs)

/-- One step of a stable insertion into a key-sorted list (ties keep the
existing element first, so the inserted — originally earlier — element ends
up before later elements of equal key, as Python's stable `sorted` does). -/
def orderedInsertKey (x : String) : List String → List String
  | [] => [x]
  | y :: ys =>
    if (_try_float_df x).ble (_try_float_df y) then x :: y :: ys
    else y :: orderedInsertKey x ys

/-- `sorted(paths, key=_try_float)`: a stable sort by the `_try_float` key
(stable sorting by a key is unique, so this insertion sort agrees with
Python's timsort). -/
def sortByKey : List String → List String
  | [] => []
  | x :: xs => orderedInsertKey x (sortByKey xs)

/-- `Storage._latest_version` from `fulltext/services/store/store.py`,
taking the `os.listdir` result as its input: drop dot-entries, sort stably
by `_try_float`, return the last element (`none` models the `DoesNotExist`
raised when no versions remain). -/
def Storage._latest_version (paths : List String) : Option String :=
  lastOpt (sortByKey (paths.filter fun p => !(startsWithDot p)))

/-- The element of a list with the greatest key value, taking the
**last** occurrence among ties. -/
def lastMaxBy (key : String → DecFloat) : List String → Option String
  | [] => none
  | x :: xs =>
    match lastMaxBy key xs with
    | none => some x
    | some m => some (if (key x).ble (key m) then m else x)

/-- The behaviour the claim ascribes to latest-version resolution
(spec §4.1.1, stated for comparison with `Storage._latest_version`): the
name with the numerically largest float parse when at least one name
parses, otherwise the lexicographically last non-parseable name. -/
def spec_latest_version (paths : List String) : Option String :=
  let vs := paths.filter fun p => !(startsWithDot p)
  let parseable := vs.filter fun p => (pyFloatParse p).isSome
  if parseable.isEmpty then
    lexLast vs
  else
    lastMaxBy _try_float_df parseable

/-- `Storage._store`: write one file whole, raising `StorageFailed` on an
I/O error (paths in `fs.failing` model `IOError`/`PermissionError` on
`open(path, 'w')`). -/
def Storage._store (fs : FS) (path : FilePath') (content : FileContent) :
    Except StoreErr FS :=
  if path ∈ fs.failing then .error .StorageFailed
  else .ok { fs with files := writePath fs.files path content }

/-- `Storage.store` from `fulltext/services/store/store.py`: when
`content_fmt is not None and extraction.content is not None`, first write the
content blob at `_path`; then (only reached if that write did not raise)
write the metadata — `to_dict()` with `content` popped — at `_meta_path`. -/
def Storage.store (volume : String) (fs : FS) (extraction : Extraction)
    (content_fmt : Option String) : Except StoreErr FS :=
  let step1 : Except StoreErr FS :=
    match content_fmt, extraction.content with
    | some fmt, some content =>
      Storage._store fs
        (Storage._path volume extraction.identifier extraction.version fmt
          extraction.bucket)
        (.text content)
    | _, _ => .ok fs
  match step1 with
  | .error e => .error e
  | .ok fs1 =>
    Storage._store fs1
      (Storage._meta_path volume extraction.identifier extraction.version
        extraction.bucket)
      (.meta extraction.to_dict.popContent)

/-- `Storage.retrieve` from `fulltext/services/store/store.py`: resolve the
version (latest if not given), read and deserialise `meta.json`
(`DoesNotExist` if absent), optionally read the content blob — its absence
is non-fatal (`content = None`) — and assert `meta['bucket'] == bucket`. -/
def Storage.retrieve (volume : String) (fs : FS) (identifier : String)
    (version : Option String) (content_fmt : String) (bucket : String)
    (meta_only : Bool) : Except StoreErr Extraction :=
  let resolved : Except StoreErr String :=
    match version with
    | some v => .ok v
    | none =>
      match Storage._latest_version
          (fs.listdir (Storage._paper_path volume identifier bucket)) with
      | none => .error .DoesNotExist
      | some v => .ok v
  match resolved with
  | .error e => .error e
  | .ok ver =>
    let content_path := Storage._path volume identifier ver content_fmt bucket
    match fs.lookup (Storage._meta_path volume identifier ver bucket) with
    | none => .error .DoesNotExist
    | some (.text _) => .error .ValueError
    | some (.meta m) =>
      let started? : Except StoreErr (Option PyDateTime) :=
        match m.started with
        | none => .ok none
        | some s =>
          match fromisoformat s.data with
          | none => .error .ValueError
          | some d => .ok (some d)
      let ended? : Except StoreErr (Option PyDateTime) :=
        match m.ended with
        | none => .ok none
        | some s =>
          match fromisoformat s.data with
          | none => .error .ValueError
          | some d => .ok (some d)
      match started?, ended?, Status.ofValue m.status with
      | .ok sa, .ok en, some st =>
        let content : Option String :=
          if meta_only then none
          else
            match fs.lookup content_path with
            | some (.text t) => some t
            | _ => none
        if m.bucket = bucket then
          .ok ⟨m.identifier, m.version, m.bucket, sa, en, m.owner,
            m.exception, m.task_id, st, content⟩
        else .error .AssertionError
      | _, _, _ => .error .ValueError

/-! ### PSV normaliser boundary (`fulltext/process/psv.py`)

The extracted text is ASCII in practice; the character classes below are the
ASCII readings of the `re` classes used by `split_on_references`. -/

/-- Whether a character is an ASCII letter (`[a-zA-Z]`). -/
def isAsciiAlpha (c : Char) : Bool :=
  isLowerAlpha c ∨ (65 ≤ c.toNat ∧ c.toNat ≤ 90)

/-- Whether a character is a word character (`\w` on this input set). -/
def isWordChar (c : Char) : Bool :=
  isAsciiAlpha c ∨ isDigitChar c ∨ c = '_'

/-- ASCII lower-casing (`re.IGNORECASE` comparison). -/
def asciiLower (c : Char) : Char :=
  if 65 ≤ c.toNat ∧ c.toNat ≤ 90 then Char.ofNat (c.toNat + 32) else c

/-- `regex_refsection.match(line)` from `split_on_references`: the regex
`^[^a-zA-Z]*(Reference[s]?|Bibliography)[\W]*$` with `re.IGNORECASE`.
Since the group starts with a letter, the leading `[^a-zA-Z]*` consumes
exactly the maximal non-letter prefix; after the keyword (and the optional
`s`) every remaining character must be a non-word character (`$` also
matches just before a final newline, which `[\W]*` covers as `\n` is
non-word). -/
def regex_refsection_matches (line : String) : Bool :=
  let low := (line.data.dropWhile fun c => !(isAsciiAlpha c)).map asciiLower
  if low.take 9 = "reference".data then
    (match low.drop 9 with
     | 's' :: rest => rest.all fun c => !(isWordChar c)
     | rest => rest.all fun c => !(isWordChar c))
  else if low.take 12 = "bibliography".data then
    (low.drop 12).all fun c => !(isWordChar c)
  else false

/-- The boundary regex as the claim states it:
`^[^A-Za-z]*(References|Bibliography)[\W]*$` — plural only (stated for
comparison with `regex_refsection_matches`). -/
def spec_refsection_matches (line : String) : Bool :=
  let low := (line.data.dropWhile fun c => !(isAsciiAlpha c)).map asciiLower
  if low.take 10 = "references".data then
    (low.drop 10).all fun c => !(isWordChar c)
  else if low.take 12 = "bibliography".data then
    (low.drop 12).all fun c => !(isWordChar c)
  else false

/-- The first loop of `split_on_references`: `line_num` counts lines,
`last_refs` remembers the 1-based number of the last matching line. -/
def lastRefsAux : List String → Nat → Nat → Nat
  | [], _, last => last
  | l :: ls, num, last =>
    lastRefsAux ls (num + 1) (if regex_refsection_matches l then num + 1 else last)

/-- The second loop of `split_on_references`: distribute each line by its
0-based index `idx` — to `ref` when `last_refs > 0 and line_num >= last_refs - 1`,
else to `psv`. -/
def splitAux (k : Nat) : Nat → List String → List String × List String
  | _, [] => ([], [])
  | idx, l :: ls =>
    let pr := splitAux k (idx + 1) ls
    if k > 0 ∧ idx ≥ k - 1 then (pr.1, l :: pr.2) else (l :: pr.1, pr.2)

/-- `split_on_references` from `fulltext/process/psv.py` (with the default
`max_refs_fraction=0.5`, the only value used).  The float test
`1.0 - last_refs / line_num > 0.5` is written in its exact integer form
`2 * last_refs < line_num`; `refs_fraction_gt_half_iff` below proves the two
forms equal (for the feasible list lengths the float rounding cannot flip
this comparison). -/
def split_on_references (lines : List String) : List String × List String :=
  let line_num := lines.length
  let last_refs := lastRefsAux lines 0 0
  let last_refs :=
    if line_num ≠ 0 ∧ 2 * last_refs < line_num then line_num + 1 else last_refs
  splitAux last_refs 0 lines

/-! ### Task coordinator (`fulltext/extract.py`) -/

/-- A task published to the queue by `create_task`
(`send_task('extract', (identifier, id_type, version), {'token': token},
task_id=...)`). -/
structure QueueTask where
  name : String
  args : String × String × String
  token : Option String
  id : String
deriving DecidableEq, Repr

/-- The shared state touched by the coordinator: the storage volume and the
task queue. -/
structure CoordState where
  fs : FS
  queue : List QueueTask
deriving DecidableEq, Repr

/-- Ambient configuration and effects for `create_task`: `STORAGE_VOLUME`,
`get_version()` (the `EXTRACTOR_VERSION` config value, default `'-1.0'`),
`datetime.now(UTC)`, and whether the queue publish succeeds. -/
structure CoordEnv where
  volume : String
  version : String
  now : PyDateTime
  publishOk : Bool
deriving DecidableEq, Repr

/-- `get_version` from `fulltext/extract.py` (the configured
`EXTRACTOR_VERSION`, with the `'-1.0'` default already applied in the
environment value). -/
def get_version (env : CoordEnv) : String := env.version

/-- Errors raised by the coordinator (`fulltext/extract.py`). -/
inductive CoordErr where
  | TaskCreationFailed
  | NoSuchTask
  | UnexpectedState
deriving DecidableEq, Repr

/-- `create_task` from `fulltext/extract.py`: persist the `IN_PROGRESS`
`Extraction` via the store **first**, then publish the task; any exception —
from the store write or from the publish — is re-raised as
`TaskCreationFailed` (a publish failure happens after the metadata write has
persisted). -/
def create_task (identifier id_type : String) (owner token : Option String)
    (env : CoordEnv) (st : CoordState) : Except CoordErr String × CoordState :=
  let version := get_version env
  let _task_id := task_id identifier id_type version
  match Storage.store env.volume st.fs
      ⟨identifier, version, id_type, some env.now, none, owner, none,
        some _task_id, .IN_PROGRESS, none⟩ none with
  | .error _ => (.error .TaskCreationFailed, st)
  | .ok fs1 =>
    if env.publishOk then
      (.ok _task_id,
        ⟨fs1, st.queue ++ [⟨"extract", (identifier, id_type, version), token, _task_id⟩]⟩)
    else
      (.error .TaskCreationFailed, ⟨fs1, st.queue⟩)

/-- `str(x)` on an optional string: Python renders `None` as the literal
string `"None"`. -/
def pyStr : Option String → String
  | none => "None"
  | some s => s

/-- The result object of a queue task: nothing (pending/sent), a string
(the exception of a failed task), or the dict a succeeded `extract` task
returned (only its `owner` entry is read). -/
inductive TaskResult where
  | nothing
  | str (s : String)
  | dict (owner : Option String)
deriving DecidableEq, Repr

/-- `str(result.result)` as used on the `FAILURE` path. -/
def strOfResult : TaskResult → String
  | .nothing => "None"
  | .str s => s
  | .dict o => pyStr o

/-- The backend's view of a task id (`AsyncResult(task_id).status/.result`). -/
structure BackendState where
  status : String
  result : TaskResult
deriving DecidableEq, Repr

/-- `get_task` from `fulltext/extract.py`: map the backend state of
`task_id(identifier, id_type, version)` onto an `Extraction`.  Note the
`SUCCESS` arm sets `owner = str(result.result['owner'])`, which renders a
null owner as the string `"None"`. -/
def get_task (identifier id_type version : String)
    (backend : String → BackendState) : Except CoordErr Extraction :=
  let _task_id := task_id identifier id_type version
  let r := backend _task_id
  if r.status = "PENDING" then .error .NoSuchTask
  else if r.status = "SENT" ∨ r.status = "STARTED" ∨ r.status = "RETRY" then
    .ok ⟨identifier, version, id_type, none, none, none, none,
      some _task_id, .IN_PROGRESS, none⟩
  else if r.status = "FAILURE" then
    .ok ⟨identifier, version, id_type, none, none, none,
      some (strOfResult r.result), some _task_id, .FAILED, none⟩
  else if r.status = "SUCCESS" then
    match r.result with
    | .dict owner =>
      .ok ⟨identifier, version, id_type, none, none, some (pyStr owner), none,
        some _task_id, .SUCCEEDED, none⟩
    | _ => .error .UnexpectedState
  else .error .UnexpectedState

/-! ### The worker task (`extract` in `fulltext/extract.py`) -/

/-- Collaborator outcomes for one run of the worker task: the PDF fetch
(`_retrieve_pdf` + `_store_pdf_in_workdir`), the sandbox call
(`extractor.do_extraction`), the two `datetime.now(UTC)` readings, and the
pure PSV normaliser `psv.normalize_text_psv` (a total function of the text,
passed in as a value). -/
structure WorkerEnv where
  volume : String
  now_fail : PyDateTime
  now_done : PyDateTime
  pdf : Except String Unit
  extracted : Except String String
  normalize : String → String

/-- Exceptions propagating out of the worker task. -/
inductive ExtractErr where
  | DoesNotExist
  | StorageFailed
  | ValueError
  | AssertionError
  | PdfError (msg : String)
  | ExtractorError (msg : String)
  | CopyError
deriving DecidableEq, Repr

/-- The worker task `extract` from `fulltext/extract.py`.  Steps: load the
pre-created metadata (`meta_only=True`); fetch the PDF and run the sandbox
inside a `try` whose handler writes the `FAILED` record and re-raises; then
— **outside** any handler — write the `SUCCEEDED` record with the plain
text, compute the PSV variant and write it.  Errors after the `try` block
propagate without further writes (a failing store call leaves the model
state as it was before that call; the possible partially-written blob of a
failed two-file store is not modelled, as no claim depends on it). -/
def extract (identifier id_type version : String) (env : WorkerEnv)
    (fs : FS) : Except ExtractErr MetaDict × FS :=
  match Storage.retrieve env.volume fs identifier (some version) "plain"
      id_type true with
  | .error .DoesNotExist => (.error .DoesNotExist, fs)
  | .error .ValueError => (.error .ValueError, fs)
  | .error .AssertionError => (.error .AssertionError, fs)
  | .error .StorageFailed => (.error .StorageFailed, fs)
  | .ok extraction =>
    match env.pdf with
    | .error emsg =>
      match extraction.copy
          { status := some .FAILED, ended := some env.now_fail,
            exception := some emsg } with
      | none => (.error .CopyError, fs)
      | some failed =>
        match Storage.store env.volume fs failed none with
        | .error _ => (.error .StorageFailed, fs)
        | .ok fs1 => (.error (.PdfError emsg), fs1)
    | .ok _ =>
      match env.extracted with
      | .error emsg =>
        match extraction.copy
            { status := some .FAILED, ended := some env.now_fail,
              exception := some emsg } with
        | none => (.error .CopyError, fs)
        | some failed =>
          match Storage.store env.volume fs failed none with
          | .error _ => (.error .StorageFailed, fs)
          | .ok fs1 => (.error (.ExtractorError emsg), fs1)
      | .ok content =>
        match extraction.copy
            { status := some .SUCCEEDED, ended := some env.now_done,
              content := some content } with
        | none => (.error .CopyError, fs)
        | some succ =>
          match Storage.store env.volume fs succ (some "plain") with
          | .error _ => (.error .StorageFailed, fs)
          | .ok fs2 =>
            match succ.copy { content := some (env.normalize content) } with
            | none => (.error .CopyError, fs2)
            | some psvx =>
              match Storage.store env.volume fs2 psvx (some "psv") with
              | .error _ => (.error .StorageFailed, fs2)
              | .ok fs3 => (.ok psvx.to_dict.popContent, fs3)

/-! ### Controllers (`fulltext/controllers.py`) -/

/-- The `url_for` targets used by the controllers. -/
inductive Endpoint where
  | task_status (identifier id_type : String)
  | retrieve (identifier id_type : String)
deriving DecidableEq, Repr

/-- A controller response: the `reason` payload entry, the HTTP status code,
and the `Location` header. -/
structure Response where
  reason : String
  code : Nat
  location : Option Endpoint
deriving DecidableEq, Repr

/-- HTTP errors raised by the controllers. -/
inductive CtrlErr where
  | NotFound
  | InternalServerError
deriving DecidableEq, Repr

/-- An authorizer callback (`Authorizer` in `fulltext/controllers.py`). -/
abbrev Authorizer := String → Option String → Bool

/-- Collaborators of `start_extraction`: the canonical PDF `exists` probe,
the preview service's `get_owner` (`.error` models its `NotFound`
exception), and the coordinator environment. -/
structure CtrlEnv where
  canonicalExists : Bool
  previewOwner : Except Unit (Option String)
  coord : CoordEnv

/-- The condition of `_redirect`'s first branch.  The source line is
`if Status is Status.IN_PROGRESS:`, which compares the `Status` **class**
itself with one of its members; `is` is therefore always `False`, and the
in-progress branch is dead code. -/
def classIsInProgress : Bool := false

/-- `_redirect` from `fulltext/controllers.py`. -/
def _redirect (extraction : Extraction) (authorizer : Option Authorizer)
    (st : CoordState) : Except CtrlErr (Response × CoordState) :=
  if (match authorizer with
      | some a => !(a extraction.identifier extraction.owner)
      | none => false) then
    .error .NotFound
  else if classIsInProgress then
    .ok (⟨"extraction in progress", 303,
      some (.task_status extraction.identifier extraction.bucket)⟩, st)
  else
    .ok (⟨"extraction already complete", 303,
      some (.retrieve extraction.identifier extraction.bucket)⟩, st)

/-- `start_extraction` from `fulltext/controllers.py`: reject unsupported
buckets; verify the resource upstream and resolve the owner (`None` for
`arxiv`, the preview service's answer for `submission`, where the authorizer
check is disabled in the source); when not forced and a record exists,
redirect via `_redirect`; otherwise `create_task` and answer 202 with the
status endpoint. -/
def start_extraction (id_type identifier : String) (token : String)
    (force : Bool) (authorizer : Option Authorizer) (env : CtrlEnv)
    (st : CoordState) : Except CtrlErr (Response × CoordState) :=
  if ¬ SupportedBuckets.mem id_type then .error .NotFound
  else
    let owner? : Except CtrlErr (Option String) :=
      if id_type = "arxiv" then
        if ¬ env.canonicalExists then .error .NotFound
        else
          match authorizer with
          | some a => if ¬ a identifier none then .error .NotFound else .ok none
          | none => .ok none
      else if id_type = "submission" then
        match env.previewOwner with
        | .error _ => .error .NotFound
        | .ok o => .ok o
      else .error .NotFound
    match owner? with
    | .error e => .error e
    | .ok owner =>
      let createNew : Except CtrlErr (Response × CoordState) :=
        match create_task identifier id_type owner (some token) env.coord st with
        | (.error _, _) => .error .InternalServerError
        | (.ok _, st') =>
          .ok (⟨"fulltext extraction in process", 202,
            some (.task_status identifier id_type)⟩, st')
      if force then createNew
      else
        match Storage.retrieve env.coord.volume st.fs identifier none "plain"
            id_type true with
        | .ok product => _redirect product authorizer st
        | .error .DoesNotExist => createNew
        | .error _ => .error .InternalServerError

/-! ### Extractor sandbox (`fulltext/services/extractor/`) -/

/-- Look up a file by name in the working directory. -/
def findFile : List (String × String) → String → Option String
  | [], _ => none
  | (n, c) :: rest, name => if n = name then some c else findFile rest name

/-- Errors of the extractor sandbox. -/
inductive ExtractorErr where
  | ContainerError
  | NoContentError
deriving DecidableEq, Repr

/-- Modelled from the spec: `do_extraction` of
`fulltext/services/extractor/extractor.py` is missing from the source tree —
only its tests (`fulltext/services/extractor/tests.py`) are present.  Per
spec §4.3: launch the sandbox against `{stub}.pdf` (`container-error` if the
launch fails); expect `{workdir}/{stub}.txt`; a missing file **or** a
zero-byte file raises `no-content`; otherwise return the file decoded as
UTF-8 (file contents are modelled as decoded strings).  This matches the
tests, which assert `NoContentError` for both a deleted and an empty output
file. -/
def do_extraction (stub : String) (containerOk : Bool)
    (workdir : List (String × String)) : Except ExtractorErr String :=
  if ¬ containerOk then .error .ContainerError
  else
    match findFile workdir (stub ++ ".txt") with
    | none => .error .NoContentError
    | some t => if t = "" then .error .NoContentError else .ok t

/-! ## End of definitions (more are appended above this marker as the development grows) -/

/-! ## Theorems -/

theorem Status.ofValue_value (s : Status) : Status.ofValue s.value = some s := by
  cases s <;> rfl

theorem digitChar_spec (k : Nat) (h : k < 10) :
    isDigitChar (digitChar k) = true ∧ digitVal (digitChar k) = k := by
  interval_cases k <;> exact ⟨by decide, by decide⟩

theorem padNum_parse (w : Nat) : ∀ (acc n : Nat) (rest : List Char),
    n < 10 ^ w → parseNumW w acc (padNum w n ++ rest) = some (acc * 10 ^ w + n, rest) := by
  induction w with
  | zero =>
    intro acc n rest h
    interval_cases n
    simp [padNum, parseNumW]
  | succ w ih =>
    intro acc n rest h
    have hd : n / 10 ^ w < 10 :=
      Nat.div_lt_of_lt_mul (by rw [← Nat.pow_succ]; exact h)
    obtain ⟨hdig, hval⟩ := digitChar_spec _ hd
    have hm : n % 10 ^ w < 10 ^ w := Nat.mod_lt _ (by positivity)
    simp only [padNum, List.cons_append, parseNumW, hdig, if_true,
      List.append_eq]
    rw [hval, ih _ _ rest hm]
    have key : (acc * 10 + n / 10 ^ w) * 10 ^ w + n % 10 ^ w = acc * 10 ^ (w + 1) + n := by
      have hdm : 10 ^ w * (n / 10 ^ w) + n % 10 ^ w = n := Nat.div_add_mod n (10 ^ w)
      calc (acc * 10 + n / 10 ^ w) * 10 ^ w + n % 10 ^ w
          = acc * 10 ^ (w + 1) + (10 ^ w * (n / 10 ^ w) + n % 10 ^ w) := by
            rw [Nat.pow_succ]; ring
        _ = acc * 10 ^ (w + 1) + n := by rw [hdm]
    rw [key]

theorem padNum_length (w n : Nat) : (padNum w n).length = w := by
  induction w generalizing n with
  | zero => rfl
  | succ w ih => simp [padNum, ih]

theorem fromisoformat_isoformat (d : PyDateTime) (h : d.WellFormed) :
    fromisoformat (isoformat d) = some d := by
  obtain ⟨y, mo, da, hh, mi, ss, us⟩ := d
  obtain ⟨h1, h2, h3, h4, h5, h6, h7⟩ := h
  unfold isoformat fromisoformat
  simp only at h1 h2 h3 h4 h5 h6 h7 ⊢
  rw [padNum_parse 4 0 y _ h1]
  simp only [expectChar, eq_self_iff_true, if_true]
  rw [padNum_parse 2 0 mo _ h2]
  simp only [expectChar, eq_self_iff_true, if_true]
  rw [padNum_parse 2 0 da _ h3]
  simp only [expectChar, eq_self_iff_true, if_true]
  rw [padNum_parse 2 0 hh _ h4]
  simp only [expectChar, eq_self_iff_true, if_true]
  rw [padNum_parse 2 0 mi _ h5]
  simp only [expectChar, eq_self_iff_true, if_true]
  rw [padNum_parse 2 0 ss _ h6]
  by_cases hus : us = 0
  · subst hus
    simp
  · rw [if_neg hus]
    simp only [List.cons_append]
    rw [padNum_parse 6 0 us _ h7]
    simp

theorem isoformatStr_data (d : PyDateTime) : (isoformatStr d).data = isoformat d := rfl

theorem string_data_append (a b : String) : (a ++ b).data = a.data ++ b.data := rfl

/-- C10. For every `Extraction` with well-formed fields, `copy()` with no
overrides reconstructs the record exactly: the round trip through `to_dict`
(ISO-8601 timestamp strings, `status` as its string value) and back restores
every field. -/
theorem extraction_copy_roundtrip (e : Extraction) (h : e.WellFormed) :
    e.copy {} = some e := by
  obtain ⟨ident, ver, bucket, started, ended, owner, exc, tid, st, content⟩ := e
  obtain ⟨hs, he⟩ := h
  simp only [Extraction.WellFormed] at hs he
  cases started <;> cases ended <;>
    simp_all [Extraction.copy, Extraction.to_dict, Status.ofValue_value,
      isoformatStr_data, fromisoformat_isoformat, Option.or]

/-- Witness for C10 at a concrete extraction record. -/
theorem extraction_copy_roundtrip_witness :
    (Extraction.WellFormed
      ⟨"2102.00123", "0.3", "arxiv", some ⟨2021, 2, 3, 4, 5, 6, 7⟩,
        some ⟨2021, 2, 3, 4, 6, 0, 0⟩, none, none,
        some "arxiv::2102.00123::0.3", .SUCCEEDED, some "text"⟩) ∧
    (Extraction.copy
      ⟨"2102.00123", "0.3", "arxiv", some ⟨2021, 2, 3, 4, 5, 6, 7⟩,
        some ⟨2021, 2, 3, 4, 6, 0, 0⟩, none, none,
        some "arxiv::2102.00123::0.3", .SUCCEEDED, some "text"⟩ {} =
      some ⟨"2102.00123", "0.3", "arxiv", some ⟨2021, 2, 3, 4, 5, 6, 7⟩,
        some ⟨2021, 2, 3, 4, 6, 0, 0⟩, none, none,
        some "arxiv::2102.00123::0.3", .SUCCEEDED, some "text"⟩) :=
  ⟨by decide, extraction_copy_roundtrip _ (by decide)⟩

theorem append_sep_inj : ∀ (a a' b b' : List Char), ':' ∉ a → ':' ∉ a' →
    a ++ ':' :: ':' :: b = a' ++ ':' :: ':' :: b' → a = a' ∧ b = b' := by
  intro a
  induction a with
  | nil =>
    intro a' b b' _ ha' heq
    cases a' with
    | nil => simpa using heq
    | cons c cs =>
      exfalso
      simp only [List.nil_append, List.cons_append, List.cons.injEq] at heq
      exact ha' (heq.1 ▸ List.mem_cons_self c cs)
  | cons c cs ih =>
    intro a' b b' ha ha' heq
    cases a' with
    | nil =>
      exfalso
      simp only [List.nil_append, List.cons_append, List.cons.injEq] at heq
      exact ha (heq.1.symm ▸ List.mem_cons_self c cs)
    | cons c' cs' =>
      simp only [List.cons_append, List.cons.injEq] at heq
      obtain ⟨hc, hrest⟩ := heq
      have := ih cs' b b' (fun hm => ha (List.mem_cons_of_mem c hm))
        (fun hm => ha' (List.mem_cons_of_mem c' hm)) hrest
      exact ⟨by rw [hc, this.1], this.2⟩

/-- C7 (amended). `task_id` is the pure function
`f"{bucket}::{identifier}::{version}"`; when the identifier and bucket
components contain no `':'` it is injective: ids agree exactly when the
triples agree. -/
theorem task_id_injective_iff (i₁ t₁ v₁ i₂ t₂ v₂ : String)
    (hi₁ : noColons i₁) (ht₁ : noColons t₁)
    (hi₂ : noColons i₂) (ht₂ : noColons t₂) :
    task_id i₁ t₁ v₁ = task_id i₂ t₂ v₂ ↔ (i₁ = i₂ ∧ t₁ = t₂ ∧ v₁ = v₂) := by
  constructor
  · intro h
    have hdata := congrArg String.data h
    simp only [task_id, string_data_append] at hdata
    have hdata' : t₁.data ++ ':' :: ':' :: (i₁.data ++ ':' :: ':' :: v₁.data) =
        t₂.data ++ ':' :: ':' :: (i₂.data ++ ':' :: ':' :: v₂.data) := by
      simpa using hdata
    obtain ⟨h1, h2⟩ := append_sep_inj _ _ _ _ ht₁ ht₂ hdata'
    obtain ⟨h3, h4⟩ := append_sep_inj _ _ _ _ hi₁ hi₂ h2
    refine ⟨?_, ?_, ?_⟩
    · exact congrArg String.mk h3
    · exact congrArg String.mk h1
    · exact congrArg String.mk h4
  · rintro ⟨rfl, rfl, rfl⟩
    rfl

/-- Witness for C7 at concrete colon-free inputs. -/
theorem task_id_injective_witness :
    task_id "2102.00123" "arxiv" "0.3" = task_id "1801.00123" "arxiv" "0.3" ↔
      (("2102.00123" : String) = "1801.00123" ∧ ("arxiv" : String) = "arxiv" ∧
        ("0.3" : String) = "0.3") :=
  task_id_injective_iff _ _ _ _ _ _ (by decide) (by decide) (by decide) (by decide)

/-- C7 counterexample: over arbitrary strings the concatenation is *not*
injective — two different triples share a task id when a component contains
`::`. -/
theorem task_id_collision :
    task_id "a" "t" "b::v" = task_id "a::b" "t" "v" ∧
      ¬(("a" : String) = "a::b" ∧ ("t" : String) = "t" ∧ ("b::v" : String) = "v") := by
  exact ⟨rfl, by decide⟩

theorem DecFloat.ble_iff (a b : DecFloat) : a.ble b = true ↔ a.toQ ≤ b.toQ := by
  unfold DecFloat.ble DecFloat.toQ
  rw [div_le_div_iff₀ (by positivity) (by positivity)]
  simp only [decide_eq_true_eq]
  constructor
  · intro h; exact_mod_cast h
  · intro h; exact_mod_cast h

theorem ble_try_float (x y : String) :
    (_try_float_df x).ble (_try_float_df y) = true ↔ _try_float x ≤ _try_float y :=
  DecFloat.ble_iff _ _

theorem orderedInsertKey_cons (x y : String) (ys : List String) :
    orderedInsertKey x (y :: ys) =
      if (_try_float_df x).ble (_try_float_df y) then x :: y :: ys
      else y :: orderedInsertKey x ys := rfl

theorem lastOpt_cons {α : Type} (a : α) (l : List α) (h : l ≠ []) :
    lastOpt (a :: l) = lastOpt l := by
  cases l with
  | nil => exact absurd rfl h
  | cons b bs => rfl

theorem orderedInsertKey_ne_nil (x : String) (L : List String) :
    orderedInsertKey x L ≠ [] := by
  cases L with
  | nil => simp [orderedInsertKey]
  | cons y ys =>
    unfold orderedInsertKey
    split <;> simp

theorem orderedInsertKey_perm (x : String) (L : List String) :
    (orderedInsertKey x L).Perm (x :: L) := by
  induction L with
  | nil => simp [orderedInsertKey]
  | cons y ys ih =>
    unfold orderedInsertKey
    split
    · exact List.Perm.refl _
    · exact (List.Perm.cons y ih).trans (List.Perm.swap x y ys)

theorem sortByKey_perm (l : List String) : (sortByKey l).Perm l := by
  induction l with
  | nil => exact List.Perm.refl _
  | cons x xs ih =>
    exact (orderedInsertKey_perm x (sortByKey xs)).trans (List.Perm.cons x ih)

theorem orderedInsertKey_lastOpt (x : String) :
    ∀ (L : List String) (m : String), lastOpt L = some m →
      (∀ y ∈ L, _try_float y ≤ _try_float m) →
      lastOpt (orderedInsertKey x L) =
        some (if (_try_float_df x).ble (_try_float_df m) then m else x) := by
  intro L
  induction L with
  | nil => intro m hm; exact absurd hm (by simp [lastOpt])
  | cons y ys ih =>
    intro m hm hub
    by_cases hxy : _try_float x ≤ _try_float y
    · have hym : _try_float y ≤ _try_float m := hub y (List.mem_cons_self y ys)
      have hxm : _try_float x ≤ _try_float m := le_trans hxy hym
      rw [orderedInsertKey_cons, if_pos ((ble_try_float x y).mpr hxy)]
      rw [lastOpt_cons x (y :: ys) (by simp), hm,
        if_pos ((ble_try_float x m).mpr hxm)]
    · rw [orderedInsertKey_cons,
        if_neg (fun hb => hxy ((ble_try_float x y).mp hb))]
      cases ys with
      | nil =>
        have hym : y = m := by simpa [lastOpt] using hm
        subst hym
        rw [if_neg (fun hb => hxy ((ble_try_float x y).mp hb))]
        rfl
      | cons z zs =>
        have hm' : lastOpt (z :: zs) = some m := by
          rw [← lastOpt_cons y (z :: zs) (by simp)]; exact hm
        have hub' : ∀ y' ∈ z :: zs, _try_float y' ≤ _try_float m :=
          fun y' hy' => hub y' (List.mem_cons_of_mem y hy')
        rw [lastOpt_cons y _ (orderedInsertKey_ne_nil x (z :: zs))]
        exact ih m hm' hub'

theorem sortByKey_lastOpt : ∀ l : List String,
    (lastMaxBy _try_float_df l = none → sortByKey l = []) ∧
    ∀ m, lastMaxBy _try_float_df l = some m →
      lastOpt (sortByKey l) = some m ∧ ∀ y ∈ l, _try_float y ≤ _try_float m := by
  intro l
  induction l with
  | nil => exact ⟨fun _ => rfl, fun m hm => by simp [lastMaxBy] at hm⟩
  | cons x xs ih =>
    obtain ⟨ihnone, ihsome⟩ := ih
    constructor
    · intro hnone
      exfalso
      unfold lastMaxBy at hnone
      revert hnone
      cases lastMaxBy _try_float_df xs <;> simp
    · intro m hm
      unfold lastMaxBy at hm
      cases hxs : lastMaxBy _try_float_df xs with
      | none =>
        rw [hxs] at hm
        have hx : m = x := by simpa using hm.symm
        subst hx
        have hempty := ihnone hxs
        constructor
        · show lastOpt (orderedInsertKey m (sortByKey xs)) = some m
          rw [hempty]
          rfl
        · intro y hy
          rcases List.mem_cons.mp hy with h | h
          · subst h; exact le_refl _
          · exact absurd ((sortByKey_perm xs).mem_iff.mpr h)
              (by rw [hempty]; simp)
      | some m' =>
        rw [hxs] at hm
        obtain ⟨hlast, hub⟩ := ihsome m' hxs
        have hub' : ∀ y ∈ sortByKey xs, _try_float y ≤ _try_float m' :=
          fun y hy => hub y ((sortByKey_perm xs).mem_iff.mp hy)
        have hm' : m = if (_try_float_df x).ble (_try_float_df m') then m' else x := by
          simpa using hm.symm
        constructor
        · show lastOpt (orderedInsertKey x (sortByKey xs)) = some m
          rw [orderedInsertKey_lastOpt x (sortByKey xs) m' hlast hub', hm']
        · intro y hy
          have hmax : _try_float m' ≤ _try_float m := by
            rw [hm']
            split
            · exact le_refl _
            · next hb =>
              exact le_of_lt (lt_of_not_le (fun hle =>
                hb ((ble_try_float x m').mpr hle)))
          rcases List.mem_cons.mp hy with h | h
          · subst h
            rw [hm']
            split
            · next hb => exact (ble_try_float y m').mp hb
            · exact le_refl _
          · exact le_trans (hub y h) hmax

theorem lastMaxBy_decomp :
    ∀ (l : List String) (m : String), lastMaxBy _try_float_df l = some m →
      ∃ l₁ l₂, l = l₁ ++ m :: l₂ ∧ (∀ x ∈ l₁, _try_float x ≤ _try_float m) ∧
        (∀ x ∈ l₂, _try_float x < _try_float m) := by
  intro l
  induction l with
  | nil => intro m hm; simp [lastMaxBy] at hm
  | cons x xs ih =>
    intro m hm
    unfold lastMaxBy at hm
    cases hxs : lastMaxBy _try_float_df xs with
    | none =>
      rw [hxs] at hm
      have hx : m = x := by simpa using hm.symm
      subst hx
      have hempty : xs = [] := by
        cases xs with
        | nil => rfl
        | cons z zs =>
          exfalso
          unfold lastMaxBy at hxs
          revert hxs
          cases lastMaxBy _try_float_df zs <;> simp
      subst hempty
      exact ⟨[], [], rfl, by simp, by simp⟩
    | some m' =>
      rw [hxs] at hm
      have hm' : m = if (_try_float_df x).ble (_try_float_df m') then m' else x := by
        simpa using hm.symm
      obtain ⟨l₁, l₂, hsplit, hle, hlt⟩ := ih m' hxs
      by_cases hxm : (_try_float_df x).ble (_try_float_df m') = true
      · rw [hm', if_pos hxm]
        exact ⟨x :: l₁, l₂, by rw [hsplit]; rfl, by
          intro z hz
          rcases List.mem_cons.mp hz with h | h
          · rw [h]; exact (ble_try_float x m').mp hxm
          · exact hle z h, hlt⟩
      · rw [hm', if_neg hxm]
        have hm'x : _try_float m' < _try_float x :=
          lt_of_not_le (fun hle' => hxm ((ble_try_float x m').mpr hle'))
        refine ⟨[], xs, rfl, by simp, ?_⟩
        intro z hz
        rw [hsplit] at hz
        rcases List.mem_append.mp hz with h | h
        · exact lt_of_le_of_lt (hle z h) hm'x
        · rcases List.mem_cons.mp h with h' | h'
          · subst h'; exact hm'x
          · exact lt_trans (hlt z h') hm'x

/-- C4 (amended). `Storage._latest_version` returns the entry whose
`_try_float` key (the float parse, `0.0` for non-parseable names) is
maximal among the non-dot entries, taking the **last** occurrence of that
maximal key in the listing order — not the lexicographically last
non-parseable name, and not always a parseable name when one exists. -/
theorem latest_version_last_of_max_key (paths : List String) (r : String)
    (h : Storage._latest_version paths = some r) :
    ∃ l₁ l₂, paths.filter (fun p => !(startsWithDot p)) = l₁ ++ r :: l₂ ∧
      (∀ x ∈ l₁, _try_float x ≤ _try_float r) ∧
      (∀ x ∈ l₂, _try_float x < _try_float r) := by
  unfold Storage._latest_version at h
  set vs := paths.filter (fun p => !(startsWithDot p)) with hvs
  obtain ⟨hnone, hsome⟩ := sortByKey_lastOpt vs
  cases hmax : lastMaxBy _try_float_df vs with
  | none =>
    rw [hnone hmax] at h
    simp [lastOpt] at h
  | some m =>
    obtain ⟨hlast, _⟩ := hsome m hmax
    rw [hlast] at h
    have hmr : m = r := by simpa using h
    exact hmr ▸ lastMaxBy_decomp vs m hmax

/-- Witness for C4 at a concrete listing. -/
theorem latest_version_last_of_max_key_witness :
    ∃ l₁ l₂, (["0.2", ".dot", "0.3", "classic"].filter
        (fun p => !(startsWithDot p))) = l₁ ++ "0.3" :: l₂ ∧
      (∀ x ∈ l₁, _try_float x ≤ _try_float "0.3") ∧
      (∀ x ∈ l₂, _try_float x < _try_float "0.3") :=
  latest_version_last_of_max_key ["0.2", ".dot", "0.3", "classic"] "0.3" (by decide)

/-- C4 counterexample: with no parseable name, `_latest_version` returns the
last entry in listing order (`"a"`), not the lexicographically last (`"b"`);
and a parseable negative version loses to a non-parseable name (key `0.0`),
contradicting both halves of the claimed resolution rule
(`spec_latest_version`). -/
theorem latest_version_not_spec :
    Storage._latest_version ["b", "a"] = some "a" ∧
      spec_latest_version ["b", "a"] = some "b" ∧
      Storage._latest_version ["-1.0", "classic"] = some "classic" ∧
      spec_latest_version ["-1.0", "classic"] = some "-1.0" := by
  refine ⟨by decide, by decide, by decide, by decide⟩


theorem refs_fraction_gt_half_iff (k n : Nat) (hn : 0 < n) :
    (1 - (k : ℚ) / n > 1 / 2) ↔ 2 * k < n := by
  have hn' : (0 : ℚ) < n := by exact_mod_cast hn
  constructor
  · intro h
    have h1 : (k : ℚ) / n < 1 / 2 := by linarith
    rw [div_lt_div_iff₀ hn' (by norm_num)] at h1
    have h2 : (2 : ℚ) * k < n := by linarith
    exact_mod_cast h2
  · intro h
    have h' : (2 : ℚ) * k < n := by exact_mod_cast h
    have h1 : (k : ℚ) / n < 1 / 2 := by
      rw [div_lt_div_iff₀ hn' (by norm_num)]
      linarith
    linarith

theorem lastRefsAux_of_no_match : ∀ (ls : List String) (num last : Nat),
    (∀ l ∈ ls, regex_refsection_matches l = false) →
    lastRefsAux ls num last = last := by
  intro ls
  induction ls with
  | nil => intro num last _; rfl
  | cons l ls ih =>
    intro num last h
    unfold lastRefsAux
    rw [h l (List.mem_cons_self l ls)]
    simp only [Bool.false_eq_true, if_false]
    exact ih (num + 1) last (fun x hx => h x (List.mem_cons_of_mem l hx))

theorem lastRefsAux_boundary : ∀ (ls : List String) (j : Nat) (hj : j < ls.length),
    regex_refsection_matches (ls.get ⟨j, hj⟩) = true →
    (∀ i, (hi : i < ls.length) → j < i →
      regex_refsection_matches (ls.get ⟨i, hi⟩) = false) →
    ∀ num last, lastRefsAux ls num last = num + j + 1 := by
  intro ls
  induction ls with
  | nil => intro j hj; exact absurd hj (Nat.not_lt_zero j)
  | cons l ls ih =>
    intro j hj hmatch hafter num last
    cases j with
    | zero =>
      have hl : regex_refsection_matches l = true := hmatch
      unfold lastRefsAux
      rw [hl]
      simp only [if_true]
      have hnone : ∀ x ∈ ls, regex_refsection_matches x = false := by
        intro x hx
        obtain ⟨⟨i', hi'⟩, hget⟩ := List.mem_iff_get.mp hx
        have := hafter (i' + 1) (Nat.succ_lt_succ hi') (Nat.succ_pos i')
        rw [← hget]
        exact this
      rw [lastRefsAux_of_no_match ls (num + 1) (num + 1) hnone]
    | succ j' =>
      have hj' : j' < ls.length := Nat.lt_of_succ_lt_succ hj
      unfold lastRefsAux
      have hrec := ih j' hj' hmatch
        (fun i hi hgt => hafter (i + 1) (Nat.succ_lt_succ hi) (Nat.succ_lt_succ hgt))
        (num + 1) (if regex_refsection_matches l then num + 1 else last)
      rw [hrec]
      omega

theorem splitAux_take_drop : ∀ (ls : List String) (k idx : Nat), 0 < k →
    splitAux k idx ls = (ls.take (k - 1 - idx), ls.drop (k - 1 - idx)) := by
  intro ls
  induction ls with
  | nil => intro k idx _; simp [splitAux]
  | cons l ls ih =>
    intro k idx hk
    simp only [splitAux]
    by_cases hcond : idx ≥ k - 1
    · rw [if_pos ⟨hk, hcond⟩, ih k (idx + 1) hk]
      have h0 : k - 1 - idx = 0 := by omega
      have h0' : k - 1 - (idx + 1) = 0 := by omega
      simp [h0, h0']
    · rw [if_neg (fun hand => hcond hand.2), ih k (idx + 1) hk]
      have hstep : k - 1 - idx = (k - 1 - (idx + 1)) + 1 := by omega
      rw [hstep]
      simp

/-- C9 (amended). The references boundary is the **last** line matching
`^[^a-zA-Z]*(Reference[s]?|Bibliography)[\W]*$` case-insensitively (singular
`Reference` included).  The references half is the boundary line and
everything after it; the split is suppressed — everything becomes body —
exactly when the lines **strictly after** the boundary exceed 50% of the
total (`1 - last_refs/line_num > 0.5`), not when the references section
itself does. -/
theorem split_on_references_boundary (lines : List String) (j : Nat)
    (hj : j < lines.length)
    (hmatch : regex_refsection_matches (lines.get ⟨j, hj⟩) = true)
    (hafter : ∀ i, (hi : i < lines.length) → j < i →
      regex_refsection_matches (lines.get ⟨i, hi⟩) = false) :
    split_on_references lines =
      if 2 * (j + 1) < lines.length then (lines, ([] : List String))
      else (lines.take j, lines.drop j) := by
  have hlen : lines.length ≠ 0 := by omega
  unfold split_on_references
  rw [lastRefsAux_boundary lines j hj hmatch hafter 0 0]
  simp only [Nat.zero_add]
  by_cases hs : 2 * (j + 1) < lines.length
  · rw [if_pos ⟨hlen, hs⟩, if_pos hs,
      splitAux_take_drop lines (lines.length + 1) 0 (by omega)]
    have harith : lines.length + 1 - 1 - 0 = lines.length := by omega
    rw [harith, List.take_length, List.drop_length]
  · rw [if_neg (fun hand => hs hand.2), if_neg hs,
      splitAux_take_drop lines (j + 1) 0 (by omega)]
    have harith : j + 1 - 1 - 0 = j := by omega
    rw [harith]

/-- Witness for C9 at a concrete line list (boundary at index 1, section of
2 of 3 lines: not suppressed because only 1 line lies strictly after the
boundary). -/
theorem split_on_references_boundary_witness :
    split_on_references ["a", "References", "r"] = (["a"], ["References", "r"]) := by
  have h := split_on_references_boundary ["a", "References", "r"] 1
    (by decide) (by decide)
    (by
      intro i hi hgt
      have h3 : i < 3 := by simpa using hi
      interval_cases i
      show regex_refsection_matches "r" = false
      decide)
  simpa using h

/-- C9 counterexample: (1) a one-line list whose single line is the boundary
is split (the code's fraction `1 - 1/1 = 0` is not `> 0.5`), although the
references section is 100% of the lines, which the claim says must suppress
the split; (2) the singular `Reference` matches the code's regex but not the
claim's plural-only regex, so the code splits a list in which the claim
finds no boundary at all. -/
theorem split_on_references_not_spec :
    split_on_references ["References"] = ([], ["References"]) ∧
      (([] : List String), (["References"] : List String)) ≠
        ((["References"] : List String), ([] : List String)) ∧
      regex_refsection_matches "Reference" = true ∧
      spec_refsection_matches "Reference" = false ∧
      split_on_references ["a", "b", "Reference", "r"] =
        (["a", "b"], ["Reference", "r"]) := by
  refine ⟨by decide, by decide, by decide, by decide, by decide⟩


theorem lookupPath_writePath_self (fl : List (FilePath' × FileContent))
    (p : FilePath') (c : FileContent) :
    lookupPath (writePath fl p c) p = some c := by
  induction fl with
  | nil => simp [writePath, lookupPath]
  | cons qc rest ih =>
    obtain ⟨q, c'⟩ := qc
    unfold writePath
    by_cases h : q = p
    · rw [if_pos h]
      simp [lookupPath]
    · rw [if_neg h]
      unfold lookupPath
      rw [if_neg h]
      exact ih

theorem lookupPath_writePath_other (fl : List (FilePath' × FileContent))
    (p q : FilePath') (c : FileContent) (h : q ≠ p) :
    lookupPath (writePath fl p c) q = lookupPath fl q := by
  induction fl with
  | nil =>
    simp only [writePath, lookupPath]
    rw [if_neg (fun hpq => h hpq.symm)]
  | cons qc rest ih =>
    obtain ⟨q', c'⟩ := qc
    unfold writePath
    by_cases hq' : q' = p
    · rw [if_pos hq']
      unfold lookupPath
      rw [if_neg (fun hpq => h hpq.symm), if_neg (fun hq'q => h (hq'q.symm.trans hq'))]
    · rw [if_neg hq']
      unfold lookupPath
      by_cases hq'q : q' = q
      · rw [if_pos hq'q, if_pos hq'q]
      · rw [if_neg hq'q, if_neg hq'q]
        exact ih

/-- C5 (amended). `Storage.store` writes the content blob exactly when the
format argument is non-null — any string, not only `plain`/`psv` — and
`extraction.content` is non-null; the blob is written **first**, and
`meta.json` is written only if that blob write succeeded.  A failing write
raises `storage-failed`; in particular a `storage-failed` blob write aborts
the call before `meta.json` is written. -/
theorem store_spec (volume : String) (fs : FS) (e : Extraction)
    (fmt : Option String) :
    (∀ fs', Storage.store volume fs e fmt = .ok fs' →
      fs'.lookup (Storage._meta_path volume e.identifier e.version e.bucket) =
        some (.meta e.to_dict.popContent) ∧
      (∀ f c, fmt = some f → e.content = some c →
        Storage._path volume e.identifier e.version f e.bucket ≠
          Storage._meta_path volume e.identifier e.version e.bucket →
        fs'.lookup (Storage._path volume e.identifier e.version f e.bucket) =
          some (.text c)) ∧
      ((fmt = none ∨ e.content = none) →
        ∀ p, p ≠ Storage._meta_path volume e.identifier e.version e.bucket →
          fs'.lookup p = fs.lookup p)) ∧
    (Storage.store volume fs e fmt = .error .StorageFailed ↔
      (∃ f c, fmt = some f ∧ e.content = some c ∧
        Storage._path volume e.identifier e.version f e.bucket ∈ fs.failing) ∨
      Storage._meta_path volume e.identifier e.version e.bucket ∈ fs.failing) := by
  set mpath := Storage._meta_path volume e.identifier e.version e.bucket with hmpath
  match hfmt : fmt, hcont : e.content with
  | some f, some c =>
    set cpath := Storage._path volume e.identifier e.version f e.bucket with hcpath
    by_cases hcf : cpath ∈ fs.failing
    · have hrun : Storage.store volume fs e (some f) = .error .StorageFailed := by
        unfold Storage.store Storage._store
        rw [hcont]
        simp only [← hcpath, ← hmpath]
        rw [if_pos hcf]
      constructor
      · intro fs' hok
        rw [hrun] at hok
        exact absurd hok (by simp)
      · rw [hrun]
        exact iff_of_true rfl (Or.inl ⟨f, c, rfl, rfl, hcf⟩)
    · by_cases hmf : mpath ∈ fs.failing
      · have hrun : Storage.store volume fs e (some f) = .error .StorageFailed := by
          unfold Storage.store Storage._store
          rw [hcont]
          simp only [← hcpath, ← hmpath]
          rw [if_neg hcf]
          dsimp only
          rw [if_pos hmf]
        constructor
        · intro fs' hok
          rw [hrun] at hok
          exact absurd hok (by simp)
        · rw [hrun]
          exact iff_of_true rfl (Or.inr hmf)
      · have hrun : Storage.store volume fs e (some f) =
            .ok ⟨writePath (writePath fs.files cpath (.text c)) mpath
                  (.meta e.to_dict.popContent), fs.failing⟩ := by
          unfold Storage.store Storage._store
          rw [hcont]
          simp only [← hcpath, ← hmpath]
          rw [if_neg hcf]
          dsimp only
          rw [if_neg hmf]
        constructor
        · intro fs' hok
          rw [hrun] at hok
          have hfs' := Except.ok.inj hok
          subst hfs'
          refine ⟨?_, ?_, ?_⟩
          · exact lookupPath_writePath_self _ _ _
          · intro f' c' hf' hc' hne
            have hf'f : f' = f := by injection hf' with h; exact h.symm
            have hc'c : c' = c := by injection hc' with h; exact h.symm
            rw [hf'f] at hne ⊢
            rw [hc'c]
            show lookupPath (writePath (writePath fs.files cpath (.text c))
              mpath (.meta e.to_dict.popContent)) cpath = some (.text c)
            rw [lookupPath_writePath_other _ _ _ _ hne]
            exact lookupPath_writePath_self _ _ _
          · intro hnone
            rcases hnone with h | h
            · exact absurd h (by simp)
            · exact absurd h (by simp)
        · rw [hrun]
          refine iff_of_false (by simp) ?_
          intro hor
          rcases hor with ⟨f', c', hf', _, hmem⟩ | hmem
          · have : f' = f := by injection hf' with h; exact h.symm
            subst this
            exact hcf hmem
          · exact hmf hmem
  | some f, none =>
    by_cases hmf : mpath ∈ fs.failing
    · have hrun : Storage.store volume fs e (some f) = .error .StorageFailed := by
        unfold Storage.store Storage._store
        rw [hcont]
        dsimp only
        simp only [← hmpath]
        rw [if_pos hmf]
      constructor
      · intro fs' hok
        rw [hrun] at hok
        exact absurd hok (by simp)
      · rw [hrun]
        exact iff_of_true rfl (Or.inr hmf)
    · have hrun : Storage.store volume fs e (some f) =
          .ok ⟨writePath fs.files mpath (.meta e.to_dict.popContent),
            fs.failing⟩ := by
        unfold Storage.store Storage._store
        rw [hcont]
        dsimp only
        simp only [← hmpath]
        rw [if_neg hmf]
      constructor
      · intro fs' hok
        rw [hrun] at hok
        have hfs' := Except.ok.inj hok
        subst hfs'
        refine ⟨lookupPath_writePath_self _ _ _, ?_, ?_⟩
        · intro f' c' _ hc' _
          exact absurd hc' (by simp)
        · intro _ p hp
          exact lookupPath_writePath_other _ _ _ _ hp
      · rw [hrun]
        refine iff_of_false (by simp) ?_
        intro hor
        rcases hor with ⟨f', c', _, hc', _⟩ | hmem
        · exact absurd hc' (by simp)
        · exact hmf hmem
  | none, _ =>
    by_cases hmf : mpath ∈ fs.failing
    · have hrun : Storage.store volume fs e none = .error .StorageFailed := by
        unfold Storage.store Storage._store
        dsimp only
        simp only [← hmpath]
        rw [if_pos hmf]
      constructor
      · intro fs' hok
        rw [hrun] at hok
        exact absurd hok (by simp)
      · rw [hrun]
        exact iff_of_true rfl (Or.inr hmf)
    · have hrun : Storage.store volume fs e none =
          .ok ⟨writePath fs.files mpath (.meta e.to_dict.popContent),
            fs.failing⟩ := by
        unfold Storage.store Storage._store
        dsimp only
        simp only [← hmpath]
        rw [if_neg hmf]
      constructor
      · intro fs' hok
        rw [hrun] at hok
        have hfs' := Except.ok.inj hok
        subst hfs'
        refine ⟨lookupPath_writePath_self _ _ _, ?_, ?_⟩
        · intro f' c' hf' _ _
          exact absurd hf' (by simp)
        · intro _ p hp
          exact lookupPath_writePath_other _ _ _ _ hp
      · rw [hrun]
        refine iff_of_false (by simp) ?_
        intro hor
        rcases hor with ⟨f', c', hf', _, _⟩ | hmem
        · exact absurd hf' (by simp)
        · exact hmf hmem

/-- Witness for C5: the error characterisation applied at a concrete store
call (no failing paths, so the call does not raise). -/
theorem store_spec_witness :
    Storage.store "vol" ⟨[], []⟩
        ⟨"w1", "0.3", "submission", none, none, some "o", none, some "t",
          .SUCCEEDED, some "X"⟩ (some "plain") = .error .StorageFailed ↔
      (∃ f c, (some "plain" : Option String) = some f ∧
        (some "X" : Option String) = some c ∧
        Storage._path "vol" "w1" "0.3" f "submission" ∈ ([] : List FilePath')) ∨
      Storage._meta_path "vol" "w1" "0.3" "submission" ∈ ([] : List FilePath') :=
  (store_spec "vol" ⟨[], []⟩
    ⟨"w1", "0.3", "submission", none, none, some "o", none, some "t",
      .SUCCEEDED, some "X"⟩ (some "plain")).2

/-- C5 counterexample: (1) a format outside `{plain, psv}` still writes a
content blob (named `bogus`), where the claim says a blob is written
*exactly* for `plain`/`psv`; (2) when the content-blob write fails with
`storage-failed`, the call raises before `meta.json` is written — the store
raises and produces no new state, where the claim says `meta.json` is always
written. -/
theorem store_not_spec :
    Storage.store "vol" ⟨[], []⟩
        ⟨"w1", "0.3", "submission", none, none, some "o", none, some "t",
          .SUCCEEDED, some "X"⟩ (some "bogus") =
      .ok ⟨[(["vol", "submission", "w1", "0.3", "bogus"], .text "X"),
            (["vol", "submission", "w1", "0.3", "meta.json"],
              .meta ⟨"w1", "0.3", none, none, some "o", some "t", none,
                "succeeded", "submission"⟩)], []⟩ ∧
      SupportedFormats.mem "bogus" = false ∧
      Storage.store "vol" ⟨[], [["vol", "submission", "w1", "0.3", "plain"]]⟩
          ⟨"w1", "0.3", "submission", none, none, some "o", none, some "t",
            .SUCCEEDED, some "X"⟩ (some "plain") = .error .StorageFailed := by
  refine ⟨by decide, by decide, by decide⟩


theorem store_ok_meta (volume : String) (fs : FS) (e : Extraction)
    (fmt : Option String) (fs' : FS)
    (h : Storage.store volume fs e fmt = .ok fs') :
    fs'.lookup (Storage._meta_path volume e.identifier e.version e.bucket) =
      some (.meta e.to_dict.popContent) := by
  unfold Storage.store Storage._store at h
  cases fmt with
  | none =>
    dsimp only at h
    by_cases hmf : Storage._meta_path volume e.identifier e.version e.bucket ∈
        fs.failing
    · rw [if_pos hmf] at h
      exact absurd h (by simp)
    · rw [if_neg hmf] at h
      have := Except.ok.inj h
      subst this
      exact lookupPath_writePath_self _ _ _
  | some f =>
    cases hcont : e.content with
    | none =>
      rw [hcont] at h
      dsimp only at h
      by_cases hmf : Storage._meta_path volume e.identifier e.version e.bucket ∈
          fs.failing
      · rw [if_pos hmf] at h
        exact absurd h (by simp)
      · rw [if_neg hmf] at h
        have := Except.ok.inj h
        subst this
        exact lookupPath_writePath_self _ _ _
    | some c =>
      rw [hcont] at h
      dsimp only at h
      by_cases hcf : Storage._path volume e.identifier e.version f e.bucket ∈
          fs.failing
      · rw [if_pos hcf] at h
        exact absurd h (by simp)
      · rw [if_neg hcf] at h
        dsimp only at h
        by_cases hmf : Storage._meta_path volume e.identifier e.version e.bucket ∈
            fs.failing
        · rw [if_pos hmf] at h
          exact absurd h (by simp)
        · rw [if_neg hmf] at h
          have := Except.ok.inj h
          subst this
          exact lookupPath_writePath_self _ _ _

theorem copy_succeeded_status (e e' : Extraction) (dt : PyDateTime) (c : String)
    (h : e.copy { status := some .SUCCEEDED, ended := some dt, content := some c } = some e') :
    e'.status = .SUCCEEDED := by
  unfold Extraction.copy Extraction.to_dict at h
  dsimp only at h
  cases hS : e.started with
  | none =>
    rw [hS] at h
    dsimp only [Option.map] at h
    have := Option.some.inj h
    rw [← this]
  | some d =>
    rw [hS] at h
    dsimp only [Option.map] at h
    cases hF : fromisoformat (isoformatStr d).data with
    | none =>
      rw [hF] at h
      exact absurd h (by simp)
    | some d' =>
      rw [hF] at h
      dsimp only [Option.map] at h
      have := Option.some.inj h
      rw [← this]

/-- C2 (amended). Once the worker has stored the plain-text blob with status
`succeeded`, a failure while storing the PSV variant does **not** revert the
stored `succeeded` metadata — but it is not merely logged: the PSV steps sit
outside the worker's `try` block, so the exception propagates and the queue
task itself fails. -/
theorem extract_psv_failure_propagates
    (identifier id_type version content : String) (env : WorkerEnv)
    (fs fs2 : FS) (extraction succ psvx : Extraction)
    (hret : Storage.retrieve env.volume fs identifier (some version) "plain"
      id_type true = .ok extraction)
    (hpdf : env.pdf = .ok ())
    (hext : env.extracted = .ok content)
    (hcopy : extraction.copy
      { status := some .SUCCEEDED, ended := some env.now_done, content := some content } =
      some succ)
    (hplain : Storage.store env.volume fs succ (some "plain") = .ok fs2)
    (hcopy2 : succ.copy { content := some (env.normalize content) } = some psvx)
    (hpsv : Storage.store env.volume fs2 psvx (some "psv") =
      .error .StorageFailed) :
    extract identifier id_type version env fs = (.error .StorageFailed, fs2) ∧
    fs2.lookup (Storage._meta_path env.volume succ.identifier succ.version
      succ.bucket) = some (.meta succ.to_dict.popContent) ∧
    succ.status = .SUCCEEDED := by
  refine ⟨?_, store_ok_meta _ _ _ _ _ hplain,
    copy_succeeded_status _ _ _ _ hcopy⟩
  unfold extract
  rw [hret]
  dsimp only
  rw [hpdf]
  dsimp only
  rw [hext]
  dsimp only
  rw [hcopy]
  dsimp only
  rw [hplain]
  dsimp only
  rw [hcopy2]
  dsimp only
  rw [hpsv]

/-- Witness for C2 at a concrete worker run: the PSV blob path fails,
`extract` raises `storage-failed`, and the stored metadata still says
`succeeded`. -/
theorem extract_psv_failure_propagates_witness :
    extract "w2" "arxiv" "0.3"
        ⟨"vol", ⟨2021, 1, 1, 0, 0, 0, 0⟩, ⟨2021, 1, 1, 0, 0, 0, 0⟩, .ok (),
          .ok "TXT", fun s => s⟩
        ⟨[(["vol", "arxiv", "w2", "0.3", "meta.json"],
            .meta ⟨"w2", "0.3", none, none, none, some "arxiv::w2::0.3", none,
              "in_progress", "arxiv"⟩)],
          [["vol", "arxiv", "w2", "0.3", "psv"]]⟩ =
      (.error .StorageFailed,
        ⟨[(["vol", "arxiv", "w2", "0.3", "meta.json"],
            .meta (Extraction.to_dict ⟨"w2", "0.3", "arxiv", none,
              some ⟨2021, 1, 1, 0, 0, 0, 0⟩, none, none,
              some "arxiv::w2::0.3", .SUCCEEDED, some "TXT"⟩).popContent),
          (["vol", "arxiv", "w2", "0.3", "plain"], .text "TXT")],
          [["vol", "arxiv", "w2", "0.3", "psv"]]⟩) ∧
    (Extraction.WellFormed ⟨"w2", "0.3", "arxiv", none,
      some ⟨2021, 1, 1, 0, 0, 0, 0⟩, none, none, some "arxiv::w2::0.3",
      .SUCCEEDED, some "TXT"⟩) :=
  ⟨(extract_psv_failure_propagates "w2" "arxiv" "0.3" "TXT"
      ⟨"vol", ⟨2021, 1, 1, 0, 0, 0, 0⟩, ⟨2021, 1, 1, 0, 0, 0, 0⟩, .ok (),
        .ok "TXT", fun s => s⟩
      ⟨[(["vol", "arxiv", "w2", "0.3", "meta.json"],
          .meta ⟨"w2", "0.3", none, none, none, some "arxiv::w2::0.3", none,
            "in_progress", "arxiv"⟩)],
        [["vol", "arxiv", "w2", "0.3", "psv"]]⟩
      ⟨[(["vol", "arxiv", "w2", "0.3", "meta.json"],
          .meta (Extraction.to_dict ⟨"w2", "0.3", "arxiv", none,
            some ⟨2021, 1, 1, 0, 0, 0, 0⟩, none, none,
            some "arxiv::w2::0.3", .SUCCEEDED, some "TXT"⟩).popContent),
        (["vol", "arxiv", "w2", "0.3", "plain"], .text "TXT")],
        [["vol", "arxiv", "w2", "0.3", "psv"]]⟩
      ⟨"w2", "0.3", "arxiv", none, none, none, none, some "arxiv::w2::0.3",
        .IN_PROGRESS, none⟩
      ⟨"w2", "0.3", "arxiv", none, some ⟨2021, 1, 1, 0, 0, 0, 0⟩, none, none,
        some "arxiv::w2::0.3", .SUCCEEDED, some "TXT"⟩
      ⟨"w2", "0.3", "arxiv", none, some ⟨2021, 1, 1, 0, 0, 0, 0⟩, none, none,
        some "arxiv::w2::0.3", .SUCCEEDED, some "TXT"⟩
      (by decide) (by decide) (by decide) (by decide) (by decide) (by decide)
      (by decide)).1, by decide⟩

/-- C2 counterexample: at this concrete worker run the claim's assertion
that "the task itself does not fail (no exception propagates)" is false —
`extract` returns the storage error — while the stored metadata does remain
`succeeded` (the part of the claim the code satisfies). -/
theorem extract_psv_failure_concrete :
    extract "w2" "arxiv" "0.3"
        ⟨"vol", ⟨2021, 1, 1, 0, 0, 0, 0⟩, ⟨2021, 1, 1, 0, 0, 0, 0⟩, .ok (),
          .ok "TXT", fun s => s⟩
        ⟨[(["vol", "arxiv", "w2", "0.3", "meta.json"],
            .meta ⟨"w2", "0.3", none, none, none, some "arxiv::w2::0.3", none,
              "in_progress", "arxiv"⟩)],
          [["vol", "arxiv", "w2", "0.3", "psv"]]⟩ =
      (.error .StorageFailed,
        ⟨[(["vol", "arxiv", "w2", "0.3", "meta.json"],
            .meta ⟨"w2", "0.3", none, some "2021-01-01T00:00:00+00:00", none,
              some "arxiv::w2::0.3", none, "succeeded", "arxiv"⟩),
          (["vol", "arxiv", "w2", "0.3", "plain"], .text "TXT")],
          [["vol", "arxiv", "w2", "0.3", "psv"]]⟩) ∧
    (Except.error ExtractErr.StorageFailed ≠
      (Except.ok (⟨"w2", "0.3", none, some "2021-01-01T00:00:00+00:00", none,
        some "arxiv::w2::0.3", none, "succeeded", "arxiv"⟩ : MetaDict) :
        Except ExtractErr MetaDict)) := by
  exact ⟨by decide, by decide⟩

/-- C6. Modelled from the spec (the extractor module is absent from the
source tree): `do_extraction` fails with `no-content` both when the expected
`{stub}.txt` output file is missing and when it is present but empty, and
returns the decoded text exactly when the file is non-empty. -/
theorem do_extraction_no_content (stub : String)
    (workdir : List (String × String)) :
    (findFile workdir (stub ++ ".txt") = none →
      do_extraction stub true workdir = .error .NoContentError) ∧
    (findFile workdir (stub ++ ".txt") = some "" →
      do_extraction stub true workdir = .error .NoContentError) ∧
    (∀ t, findFile workdir (stub ++ ".txt") = some t → t ≠ "" →
      do_extraction stub true workdir = .ok t) := by
  refine ⟨?_, ?_, ?_⟩
  · intro h
    unfold do_extraction
    rw [if_neg (by simp), h]
  · intro h
    unfold do_extraction
    rw [if_neg (by simp), h]
    dsimp only
    rw [if_pos rfl]
  · intro t h ht
    unfold do_extraction
    rw [if_neg (by simp), h]
    dsimp only
    rw [if_neg ht]

/-- Witness for C6 at a concrete working directory. -/
theorem do_extraction_no_content_witness :
    (do_extraction "miss" true [("other.txt", "zzz")] =
      .error .NoContentError) ∧
    (do_extraction "empty" true [("empty.txt", "")] =
      .error .NoContentError) ∧
    (do_extraction "good" true [("good.txt", "hello world")] =
      .ok "hello world") :=
  ⟨(do_extraction_no_content "miss" [("other.txt", "zzz")]).1 (by decide),
   (do_extraction_no_content "empty" [("empty.txt", "")]).2.1 (by decide),
   (do_extraction_no_content "good" [("good.txt", "hello world")]).2.2
     "hello world" (by decide) (by decide)⟩


theorem store_none_ok (volume : String) (fs : FS) (e : Extraction) (fs' : FS)
    (h : Storage.store volume fs e none = .ok fs') :
    fs' = ⟨writePath fs.files
        (Storage._meta_path volume e.identifier e.version e.bucket)
        (.meta e.to_dict.popContent), fs.failing⟩ := by
  unfold Storage.store Storage._store at h
  dsimp only at h
  by_cases hmf : Storage._meta_path volume e.identifier e.version e.bucket ∈
      fs.failing
  · rw [if_pos hmf] at h
    exact absurd h (by simp)
  · rw [if_neg hmf] at h
    exact (Except.ok.inj h).symm

theorem writePath_of_absent (fl : List (FilePath' × FileContent))
    (p : FilePath') (c : FileContent) (h : ∀ pc ∈ fl, pc.1 ≠ p) :
    writePath fl p c = fl ++ [(p, c)] := by
  induction fl with
  | nil => rfl
  | cons qc rest ih =>
    obtain ⟨q, c'⟩ := qc
    unfold writePath
    rw [if_neg (h (q, c') (List.mem_cons_self _ _))]
    rw [ih (fun pc hpc => h pc (List.mem_cons_of_mem _ hpc))]
    rfl

theorem listdir_fresh (files : List (FilePath' × FileContent))
    (failing : List FilePath') (paper : FilePath') (v : String)
    (c : FileContent)
    (hfresh : ∀ pc ∈ files, pc.1.take paper.length ≠ paper) :
    FS.listdir ⟨writePath files (paper ++ [v, "meta.json"]) c, failing⟩
      paper = [v] := by
  have habs : ∀ pc ∈ files, pc.1 ≠ paper ++ [v, "meta.json"] := by
    intro pc hpc heq
    apply hfresh pc hpc
    rw [heq]
    exact List.take_left paper _
  rw [show writePath files (paper ++ [v, "meta.json"]) c =
      files ++ [(paper ++ [v, "meta.json"], c)] from
    writePath_of_absent _ _ _ habs]
  unfold FS.listdir
  dsimp only
  rw [List.filterMap_append]
  have h1 : (files.filterMap fun pc =>
      if pc.1.take paper.length = paper then
        match pc.1.drop paper.length with
        | [] => none
        | c :: _ => some c
      else none) = [] := by
    rw [List.filterMap_eq_nil_iff]
    intro pc hpc
    rw [if_neg (hfresh pc hpc)]
  rw [h1]
  simp only [List.nil_append, List.filterMap_cons, List.filterMap_nil,
    List.take_left, if_pos rfl, List.drop_left]
  rfl

/-- C3 (amended). `create_task` persists
`Extraction(status=in_progress, started=now, task_id=...)` via the store
**before** publishing: a task never appears on the queue without the
metadata record in the store, and on success both are present.  The
immediate-consistency consequence — `retrieve(I, bucket=B, meta_only=true)`
returning the fresh `in_progress` record — holds **provided the created
version resolves as the latest one** (here: no prior extraction files exist
under the paper path); with a pre-existing record under a version whose sort
key is larger, the read resolves to that other, possibly terminal, record. -/
theorem create_task_store_before_enqueue (identifier id_type : String)
    (owner token : Option String) (env : CoordEnv) (st : CoordState)
    (r : Except CoordErr String) (st' : CoordState)
    (h : create_task identifier id_type owner token env st = (r, st')) :
    (∀ t, t ∈ st'.queue → t ∉ st.queue →
      st'.fs.lookup
          (Storage._meta_path env.volume identifier env.version id_type) =
        some (.meta (Extraction.to_dict ⟨identifier, env.version, id_type,
          some env.now, none, owner, none,
          some (task_id identifier id_type env.version), .IN_PROGRESS,
          none⟩).popContent)) ∧
    (∀ tid, r = .ok tid →
      tid = task_id identifier id_type env.version ∧
      st'.fs.lookup
          (Storage._meta_path env.volume identifier env.version id_type) =
        some (.meta (Extraction.to_dict ⟨identifier, env.version, id_type,
          some env.now, none, owner, none,
          some (task_id identifier id_type env.version), .IN_PROGRESS,
          none⟩).popContent) ∧
      st'.queue = st.queue ++
        [⟨"extract", (identifier, id_type, env.version), token, tid⟩]) ∧
    (∀ tid, r = .ok tid → env.now.WellFormed →
      startsWithDot env.version = false →
      (∀ pc ∈ st.fs.files,
        pc.1.take (Storage._paper_path env.volume identifier id_type).length ≠
          Storage._paper_path env.volume identifier id_type) →
      Storage.retrieve env.volume st'.fs identifier none "plain" id_type
          true =
        .ok ⟨identifier, env.version, id_type, some env.now, none, owner,
          none, some (task_id identifier id_type env.version), .IN_PROGRESS,
          none⟩) := by
  unfold create_task get_version at h
  dsimp only at h
  cases hs : Storage.store env.volume st.fs
      ⟨identifier, env.version, id_type, some env.now, none, owner, none,
        some (task_id identifier id_type env.version), .IN_PROGRESS, none⟩
      none with
  | error err =>
    rw [hs] at h
    dsimp only at h
    obtain ⟨hr, hst⟩ := Prod.mk.injEq .. ▸ h
    refine ⟨?_, ?_, ?_⟩
    · intro t ht hnt
      rw [← hst] at ht
      exact absurd ht hnt
    · intro tid htid
      rw [← hr] at htid
      exact absurd htid (by simp)
    · intro tid htid
      rw [← hr] at htid
      exact absurd htid (by simp)
  | ok fs1 =>
    rw [hs] at h
    dsimp only at h
    by_cases hp : env.publishOk
    · rw [if_pos hp] at h
      obtain ⟨hr, hst⟩ := Prod.mk.injEq .. ▸ h
      have hlook : fs1.lookup
          (Storage._meta_path env.volume identifier env.version id_type) =
          some (.meta (Extraction.to_dict ⟨identifier, env.version, id_type,
            some env.now, none, owner, none,
            some (task_id identifier id_type env.version), .IN_PROGRESS,
            none⟩).popContent) :=
        store_ok_meta _ _ _ _ _ hs
      refine ⟨?_, ?_, ?_⟩
      · intro t _ _
        rw [← hst]
        exact hlook
      · intro tid htid
        rw [← hr] at htid
        have : tid = task_id identifier id_type env.version :=
          (Except.ok.inj htid).symm
        subst this
        rw [← hst]
        exact ⟨rfl, hlook, rfl⟩
      · intro tid _ hwf hdot hfresh
        rw [← hst]
        have hfs1 := store_none_ok _ _ _ _ hs
        subst hfs1
        dsimp only
        unfold Storage.retrieve
        have hld := listdir_fresh st.fs.files st.fs.failing
          (Storage._paper_path env.volume identifier id_type) env.version
          (.meta (Extraction.to_dict ⟨identifier, env.version, id_type,
            some env.now, none, owner, none,
            some (task_id identifier id_type env.version), .IN_PROGRESS,
            none⟩).popContent) hfresh
        rw [show Storage._meta_path env.volume identifier env.version id_type =
            Storage._paper_path env.volume identifier id_type ++
              [env.version, "meta.json"] from rfl] at *
        rw [hld]
        have hlat : Storage._latest_version [env.version] = some env.version := by
          unfold Storage._latest_version
          rw [show List.filter (fun p => !(startsWithDot p)) [env.version] =
              [env.version] by
            simp [List.filter, hdot]]
          rfl
        rw [hlat]
        dsimp only [FS.lookup]
        rw [show Storage._meta_path env.volume identifier env.version id_type =
            Storage._paper_path env.volume identifier id_type ++
              [env.version, "meta.json"] from rfl]
        rw [lookupPath_writePath_self]
        dsimp only [Extraction.to_dict, ExtractionDict.popContent,
          Option.map]
        rw [isoformatStr_data, fromisoformat_isoformat env.now hwf]
        dsimp only [Status.value]
        rw [show Status.ofValue "in_progress" = some .IN_PROGRESS from rfl]
        dsimp only
        rw [if_pos rfl]
        simp
    · rw [if_neg hp] at h
      obtain ⟨hr, hst⟩ := Prod.mk.injEq .. ▸ h
      have hlook : fs1.lookup
          (Storage._meta_path env.volume identifier env.version id_type) =
          some (.meta (Extraction.to_dict ⟨identifier, env.version, id_type,
            some env.now, none, owner, none,
            some (task_id identifier id_type env.version), .IN_PROGRESS,
            none⟩).popContent) :=
        store_ok_meta _ _ _ _ _ hs
      refine ⟨?_, ?_, ?_⟩
      · intro t _ _
        rw [← hst]
        exact hlook
      · intro tid htid
        rw [← hr] at htid
        exact absurd htid (by simp)
      · intro tid htid
        rw [← hr] at htid
        exact absurd htid (by simp)

/-- Witness for C3: a fresh identifier, successful creation; the immediate
`retrieve(meta_only=true)` read returns the `in_progress` record. -/
theorem create_task_store_before_enqueue_witness :
    Storage.retrieve "vol"
        (⟨⟨[(["vol", "arxiv", "w3", "0.3", "meta.json"],
            .meta (Extraction.to_dict ⟨"w3", "0.3", "arxiv",
              some ⟨2021, 1, 1, 0, 0, 0, 0⟩, none, none, none,
              some "arxiv::w3::0.3", .IN_PROGRESS, none⟩).popContent)], []⟩,
          [⟨"extract", ("w3", "arxiv", "0.3"), none, "arxiv::w3::0.3"⟩]⟩ :
            CoordState).fs
        "w3" none "plain" "arxiv" true =
      .ok ⟨"w3", "0.3", "arxiv", some ⟨2021, 1, 1, 0, 0, 0, 0⟩, none, none,
        none, some "arxiv::w3::0.3", .IN_PROGRESS, none⟩ :=
  ((create_task_store_before_enqueue "w3" "arxiv" none none
      ⟨"vol", "0.3", ⟨2021, 1, 1, 0, 0, 0, 0⟩, true⟩ ⟨⟨[], []⟩, []⟩
      (.ok "arxiv::w3::0.3")
      ⟨⟨[(["vol", "arxiv", "w3", "0.3", "meta.json"],
          .meta (Extraction.to_dict ⟨"w3", "0.3", "arxiv",
            some ⟨2021, 1, 1, 0, 0, 0, 0⟩, none, none, none,
            some "arxiv::w3::0.3", .IN_PROGRESS, none⟩).popContent)], []⟩,
        [⟨"extract", ("w3", "arxiv", "0.3"), none, "arxiv::w3::0.3"⟩]⟩
      (by decide)).2.2) "arxiv::w3::0.3" rfl (by decide) (by decide)
    (by intro pc hpc; exact absurd hpc (by simp))

/-- C3 counterexample: with a pre-existing `succeeded` record under version
`0.5` and the configured extractor version `0.3`, `create_task` succeeds and
persists the in-progress `0.3` record, but the immediate
`retrieve(meta_only=true)` resolves the latest version `0.5` and returns a
record with status `succeeded`, not `in_progress`. -/
theorem create_task_retrieve_not_in_progress :
    (create_task "w1" "arxiv" none none
        ⟨"vol", "0.3", ⟨2021, 1, 1, 0, 0, 0, 0⟩, true⟩
        ⟨⟨[(["vol", "arxiv", "w1", "0.5", "meta.json"],
            .meta ⟨"w1", "0.5", none, none, none, some "arxiv::w1::0.5",
              none, "succeeded", "arxiv"⟩)], []⟩, []⟩).1 =
      .ok "arxiv::w1::0.3" ∧
    Storage.retrieve "vol"
        (create_task "w1" "arxiv" none none
          ⟨"vol", "0.3", ⟨2021, 1, 1, 0, 0, 0, 0⟩, true⟩
          ⟨⟨[(["vol", "arxiv", "w1", "0.5", "meta.json"],
              .meta ⟨"w1", "0.5", none, none, none, some "arxiv::w1::0.5",
                none, "succeeded", "arxiv"⟩)], []⟩, []⟩).2.fs
        "w1" none "plain" "arxiv" true =
      .ok ⟨"w1", "0.5", "arxiv", none, none, none, none,
        some "arxiv::w1::0.5", .SUCCEEDED, none⟩ ∧
    Status.SUCCEEDED ≠ Status.IN_PROGRESS := by
  exact ⟨by decide, by decide, by decide⟩


theorem create_task_ok_meta (identifier id_type : String)
    (owner token : Option String) (env : CoordEnv) (st : CoordState)
    (tid : String) (st' : CoordState)
    (h : create_task identifier id_type owner token env st = (.ok tid, st')) :
    st'.fs.lookup
        (Storage._meta_path env.volume identifier env.version id_type) =
      some (.meta (Extraction.to_dict ⟨identifier, env.version, id_type,
        some env.now, none, owner, none,
        some (task_id identifier id_type env.version), .IN_PROGRESS,
        none⟩).popContent) := by
  unfold create_task get_version at h
  dsimp only at h
  cases hs : Storage.store env.volume st.fs
      ⟨identifier, env.version, id_type, some env.now, none, owner, none,
        some (task_id identifier id_type env.version), .IN_PROGRESS, none⟩
      none with
  | error err =>
    rw [hs] at h
    dsimp only at h
    exact absurd (congrArg Prod.fst h) (by simp)
  | ok fs1 =>
    rw [hs] at h
    dsimp only at h
    by_cases hp : env.publishOk
    · rw [if_pos hp] at h
      have hst : st' = ⟨fs1, st.queue ++
          [⟨"extract", (identifier, id_type, env.version), token,
            task_id identifier id_type env.version⟩]⟩ :=
        (congrArg Prod.snd h).symm
      rw [hst]
      exact store_ok_meta _ _ _ _ _ hs
    · rw [if_neg hp] at h
      exact absurd (congrArg Prod.fst h) (by simp)

/-- C8 (amended). Extractions persisted through `start_extraction` for the
`arxiv` bucket always carry a null owner (the controller never resolves an
owner for `arxiv`).  The "owner null iff bucket = arxiv" equivalence fails
elsewhere: `get_task` coerces the succeeded backend result's owner with
`str(...)`, so a null owner comes back as the non-null string `"None"`; and
submission extractions carry whatever the upstream preview service reported,
which may be null. -/
theorem arxiv_owner_null_but_get_task_stringifies
    (identifier token : String) (auth : Option Authorizer) (env : CtrlEnv)
    (st : CoordState) (resp : Response) (st' : CoordState)
    (h : start_extraction "arxiv" identifier token true auth env st =
      .ok (resp, st')) :
    (st'.fs.lookup (Storage._meta_path env.coord.volume identifier
        env.coord.version "arxiv") =
      some (.meta (Extraction.to_dict ⟨identifier, env.coord.version, "arxiv",
        some env.coord.now, none, none, none,
        some (task_id identifier "arxiv" env.coord.version), .IN_PROGRESS,
        none⟩).popContent) ∧
     (Extraction.to_dict ⟨identifier, env.coord.version, "arxiv",
        some env.coord.now, none, none, none,
        some (task_id identifier "arxiv" env.coord.version), .IN_PROGRESS,
        none⟩).popContent.owner = none) ∧
    (∀ id2 b2 v2 (backend : String → BackendState) (o : Option String),
      backend (task_id id2 b2 v2) = ⟨"SUCCESS", .dict o⟩ →
      get_task id2 b2 v2 backend =
        .ok ⟨id2, v2, b2, none, none, some (pyStr o), none,
          some (task_id id2 b2 v2), .SUCCEEDED, none⟩) := by
  constructor
  · unfold start_extraction at h
    rw [if_neg (by decide : ¬¬(SupportedBuckets.mem "arxiv" = true))] at h
    dsimp only at h
    rw [if_pos rfl] at h
    cases hce : env.canonicalExists with
    | false =>
      rw [hce] at h
      rw [if_pos (by decide : ¬(false = true))] at h
      dsimp only at h
      exact absurd h (by simp)
    | true =>
      rw [hce] at h
      rw [if_neg (by decide : ¬¬(true = true))] at h
      cases auth with
      | none =>
        dsimp only at h
        rcases hct : create_task identifier "arxiv" none (some token)
          env.coord st with ⟨r2, st2⟩
        rw [hct] at h
        cases r2 with
        | error e2 =>
          dsimp only at h
          exact absurd h (by simp)
        | ok tid =>
          dsimp only at h
          have hpair := Except.ok.inj h
          have hst : st2 = st' := congrArg Prod.snd hpair
          rw [← hst]
          exact ⟨create_task_ok_meta _ _ _ _ _ _ _ _ hct, rfl⟩
      | some a =>
        dsimp only at h
        cases ha : a identifier none with
        | false =>
          rw [ha] at h
          rw [if_pos (by decide : ¬(false = true))] at h
          dsimp only at h
          exact absurd h (by simp)
        | true =>
          rw [ha] at h
          rw [if_neg (by decide : ¬¬(true = true))] at h
          dsimp only at h
          rcases hct : create_task identifier "arxiv" none (some token)
            env.coord st with ⟨r2, st2⟩
          rw [hct] at h
          cases r2 with
          | error e2 =>
            dsimp only at h
            exact absurd h (by simp)
          | ok tid =>
            dsimp only at h
            have hpair := Except.ok.inj h
            have hst : st2 = st' := congrArg Prod.snd hpair
            rw [← hst]
            exact ⟨create_task_ok_meta _ _ _ _ _ _ _ _ hct, rfl⟩
  · intro id2 b2 v2 backend o hb
    unfold get_task
    dsimp only
    rw [hb]
    rfl

/-- Witness for C8: a concrete forced arxiv submission persists a record
with a null owner. -/
theorem arxiv_owner_null_witness :
    (FS.lookup ⟨[(["vol", "arxiv", "w4", "0.3", "meta.json"],
        .meta (Extraction.to_dict ⟨"w4", "0.3", "arxiv",
          some ⟨2021, 1, 1, 0, 0, 0, 0⟩, none, none, none,
          some "arxiv::w4::0.3", .IN_PROGRESS, none⟩).popContent)], []⟩
      (Storage._meta_path "vol" "w4" "0.3" "arxiv") =
      some (.meta (Extraction.to_dict ⟨"w4", "0.3", "arxiv",
        some ⟨2021, 1, 1, 0, 0, 0, 0⟩, none, none, none,
        some "arxiv::w4::0.3", .IN_PROGRESS, none⟩).popContent) ∧
     (Extraction.to_dict ⟨"w4", "0.3", "arxiv", some ⟨2021, 1, 1, 0, 0, 0, 0⟩,
        none, none, none, some "arxiv::w4::0.3", .IN_PROGRESS,
        none⟩).popContent.owner = none) ∧
    (∀ id2 b2 v2 (backend : String → BackendState) (o : Option String),
      backend (task_id id2 b2 v2) = ⟨"SUCCESS", .dict o⟩ →
      get_task id2 b2 v2 backend =
        .ok ⟨id2, v2, b2, none, none, some (pyStr o), none,
          some (task_id id2 b2 v2), .SUCCEEDED, none⟩) :=
  arxiv_owner_null_but_get_task_stringifies "w4" "tok" none
    ⟨true, .ok none, ⟨"vol", "0.3", ⟨2021, 1, 1, 0, 0, 0, 0⟩, true⟩⟩
    ⟨⟨[], []⟩, []⟩
    ⟨"fulltext extraction in process", 202, some (.task_status "w4" "arxiv")⟩
    ⟨⟨[(["vol", "arxiv", "w4", "0.3", "meta.json"],
        .meta (Extraction.to_dict ⟨"w4", "0.3", "arxiv",
          some ⟨2021, 1, 1, 0, 0, 0, 0⟩, none, none, none,
          some "arxiv::w4::0.3", .IN_PROGRESS, none⟩).popContent)], []⟩,
      [⟨"extract", ("w4", "arxiv", "0.3"), some "tok", "arxiv::w4::0.3"⟩]⟩
    (by decide)

/-- C8 counterexample: `get_task` for a succeeded arxiv task whose worker
recorded no owner returns the **string** `"None"` as the owner — not null —
and a submission extraction is persisted with a null owner when the upstream
reports none, refuting both directions of "owner is null iff bucket =
arxiv". -/
theorem owner_null_iff_arxiv_fails :
    get_task "w1" "arxiv" "0.3" (fun _ => ⟨"SUCCESS", .dict none⟩) =
      .ok ⟨"w1", "0.3", "arxiv", none, none, some "None", none,
        some "arxiv::w1::0.3", .SUCCEEDED, none⟩ ∧
    (some "None" ≠ (none : Option String)) ∧
    (create_task "s1" "submission" none none
        ⟨"vol", "0.3", ⟨2021, 1, 1, 0, 0, 0, 0⟩, true⟩
        ⟨⟨[], []⟩, []⟩).2.fs.lookup
        ["vol", "submission", "s1", "0.3", "meta.json"] =
      some (.meta (Extraction.to_dict ⟨"s1", "0.3", "submission",
        some ⟨2021, 1, 1, 0, 0, 0, 0⟩, none, none, none,
        some "submission::s1::0.3", .IN_PROGRESS, none⟩).popContent) ∧
    (Extraction.to_dict ⟨"s1", "0.3", "submission",
      some ⟨2021, 1, 1, 0, 0, 0, 0⟩, none, none, none,
      some "submission::s1::0.3", .IN_PROGRESS,
      none⟩).popContent.owner = none := by
  exact ⟨by decide, by decide, by decide, by decide⟩

/-- C1 (code bug). `_redirect`'s branch condition is
`Status is Status.IN_PROGRESS` — the enum class compared with a member —
which is always false, so a second `start_extraction` with `force=false`
over an existing **in-progress** record answers 303 with `Location` at the
content (retrieve) endpoint and body "extraction already complete", where
the claim (and the surrounding code's own log messages) expect the status
endpoint. -/
theorem start_extraction_in_progress_redirects_to_content :
    Storage.retrieve "vol"
        (⟨[(["vol", "arxiv", "w1", "0.3", "meta.json"],
            .meta ⟨"w1", "0.3", none, none, none, some "arxiv::w1::0.3",
              none, "in_progress", "arxiv"⟩)], []⟩ : FS)
        "w1" none "plain" "arxiv" true =
      .ok ⟨"w1", "0.3", "arxiv", none, none, none, none,
        some "arxiv::w1::0.3", .IN_PROGRESS, none⟩ ∧
    start_extraction "arxiv" "w1" "tok" false none
        ⟨true, .ok none, ⟨"vol", "0.3", ⟨2021, 1, 1, 0, 0, 0, 0⟩, true⟩⟩
        ⟨⟨[(["vol", "arxiv", "w1", "0.3", "meta.json"],
            .meta ⟨"w1", "0.3", none, none, none, some "arxiv::w1::0.3",
              none, "in_progress", "arxiv"⟩)], []⟩, []⟩ =
      .ok (⟨"extraction already complete", 303, some (.retrieve "w1" "arxiv")⟩,
        ⟨⟨[(["vol", "arxiv", "w1", "0.3", "meta.json"],
            .meta ⟨"w1", "0.3", none, none, none, some "arxiv::w1::0.3",
              none, "in_progress", "arxiv"⟩)], []⟩, []⟩) ∧
    Endpoint.retrieve "w1" "arxiv" ≠ Endpoint.task_status "w1" "arxiv" := by
  exact ⟨by decide, by decide, by decide⟩


end Fulltext
